import Mathlib

/-!
# APEX pipeline simulator (`cpu.c`)

A shallow embedding of the seven-stage APEX pipeline of `cpu.c` and theorems
about it.

Modelling conventions.

* A C `int` is an `Int`.  Results of `+`, `-`, `*` on operand values are
  reduced with `wrap32` (32-bit two's complement).  The counters `pc`, `clock`
  and `ins_completed` only count upwards, by 4 resp. 1 in a pass of the loop,
  from `4000` resp. `0`; they are kept unreduced (they stay in the range of
  an `int` for every program of less than `2 ^ 29` instructions).
* `char opcode[..]` compared with `strcmp(..) == 0` is a `String` compared
  with `=`, and `strcpy` of an opcode is the assignment of the string.  That
  is what `strcpy` does for an opcode that ends within the array of the
  latch, as those of the loaded program do; a longer run of bytes, which the
  entries read past the end of the code memory may hold, overruns the latch
  in C, and the model has nothing to say about such a run.
* The arrays `regs`, `data_memory` and `code_memory` are functions from the
  (integer) index to the cell.  `code_memory` is a pointer into the heap, so
  the function also says what lies before and behind the loaded program.
* `cpu->stage[X]` is the field `stage_X`; the flags `busy` and `stalled`
  (C ints used as truth values) are `Bool`.
* The `printf` calls are not modelled.
-/

namespace Apex

/-- Reduction of an integer to the 32-bit two's complement range. -/
def wrap32 (x : Int) : Int := (x + 2147483648) % 4294967296 - 2147483648

/-- Modelled from the spec: `APEX_Instruction` of the header `cpu.h`, which
is not among the sources: operation code, destination register index, three
source register indices and an immediate (the fields `fetch` copies). -/
structure APEX_Instruction where
  opcode : String
  rd : Int
  rs1 : Int
  rs2 : Int
  rs3 : Int
  imm : Int
deriving DecidableEq, Inhabited

/-- Modelled from the spec: `CPU_Stage` of the header `cpu.h`, the latch of
one pipeline stage, with the fields the stage functions use. -/
structure CPU_Stage where
  pc : Int
  opcode : String
  rs1 : Int
  rs2 : Int
  rs3 : Int
  rd : Int
  imm : Int
  rs1_value : Int
  rs2_value : Int
  rs3_value : Int
  buffer : Int
  mem_address : Int
  busy : Bool
  stalled : Bool
deriving DecidableEq, Inhabited

/-- Modelled from the spec: `APEX_CPU` of the header `cpu.h`.  The array
`stage[NUM_STAGES]` indexed by `F, DRF, EX1, EX2, MEM1, MEM2, WB` is the
seven fields `stage_F` .. `stage_WB`. -/
structure APEX_CPU where
  clock : Int
  pc : Int
  regs : Int → Int
  regs_valid : Int → Int
  stage_F : CPU_Stage
  stage_DRF : CPU_Stage
  stage_EX1 : CPU_Stage
  stage_EX2 : CPU_Stage
  stage_MEM1 : CPU_Stage
  stage_MEM2 : CPU_Stage
  stage_WB : CPU_Stage
  code_memory : Int → APEX_Instruction
  code_memory_size : Int
  data_memory : Int → Int
  ins_completed : Int

/-- A latch as `memset(.., 0, ..)` leaves it. -/
def zero_stage : CPU_Stage :=
  { pc := 0, opcode := "", rs1 := 0, rs2 := 0, rs3 := 0, rd := 0, imm := 0,
    rs1_value := 0, rs2_value := 0, rs3_value := 0, buffer := 0,
    mem_address := 0, busy := false, stalled := false }

/-- The function `APEX_cpu_init`: `pc = 4000`, registers, latches and data memory zeroed,
`regs_valid` filled with the byte `1`, every latch but Fetch made busy.  The
code memory and its size come from the loader `create_code_memory`; `clock`
and `ins_completed` are not assigned by the function (the block comes from
`malloc`), so their starting values are arguments. -/
def APEX_cpu_init (code_memory : Int → APEX_Instruction) (code_memory_size : Int)
    (clock0 ins_completed0 : Int) : APEX_CPU :=
  { clock := clock0
    pc := 4000
    regs := fun _ => 0
    regs_valid := fun _ => 16843009
    stage_F := zero_stage
    stage_DRF := { zero_stage with busy := true }
    stage_EX1 := { zero_stage with busy := true }
    stage_EX2 := { zero_stage with busy := true }
    stage_MEM1 := { zero_stage with busy := true }
    stage_MEM2 := { zero_stage with busy := true }
    stage_WB := { zero_stage with busy := true }
    code_memory := code_memory
    code_memory_size := code_memory_size
    data_memory := fun _ => 0
    ins_completed := ins_completed0 }

/-- The function `get_code_index`: `(pc - 4000) / 4` with C's truncating division. -/
def get_code_index (pc : Int) : Int := (pc - 4000).tdiv 4

/-- The field copies of `fetch`: the Fetch latch after `stage->pc = cpu->pc`
and the copy of the instruction fields (`rd` is assigned twice in the
source, with the same value).  The call `strcpy(stage->opcode, ..)` is the
assignment of the opcode, which holds for an opcode that ends within the
array `stage->opcode`; the source has no bound on the copy. -/
def fetch_copy (stage : CPU_Stage) (pc : Int) (current_ins : APEX_Instruction) : CPU_Stage :=
  { stage with
    pc := pc
    opcode := current_ins.opcode
    rd := current_ins.rd
    rs1 := current_ins.rs1
    rs2 := current_ins.rs2
    rs3 := current_ins.rs3
    imm := current_ins.imm }

/-- The function `fetch`: under the guard on the Fetch latch, the field copies,
`cpu->pc += 4` and the copy of the Fetch latch into the Decode latch. -/
def fetch (cpu : APEX_CPU) : APEX_CPU :=
  if !cpu.stage_F.busy && !cpu.stage_F.stalled then
    let stage := fetch_copy cpu.stage_F cpu.pc (cpu.code_memory (get_code_index cpu.pc))
    { cpu with stage_F := stage, pc := cpu.pc + 4, stage_DRF := stage }
  else cpu

/-- The register reads of `decode`: the chain of `if (strcmp(..) == 0)`
blocks applied to the Decode latch, in source order. -/
def decode_reads (regs : Int → Int) (stage : CPU_Stage) : CPU_Stage :=
  let stage := if stage.opcode = "STORE" then
    { stage with rs1_value := regs stage.rs1, rs2_value := regs stage.rs2 } else stage
  let stage := if stage.opcode = "LOAD" then
    { stage with rs1_value := regs stage.rs1 } else stage
  let stage := if stage.opcode = "LDR" then
    { stage with rs1_value := regs stage.rs1, rs2_value := regs stage.rs2 } else stage
  let stage := if stage.opcode = "STR" then
    { stage with rs1_value := regs stage.rs1, rs2_value := regs stage.rs2,
                 rs3_value := regs stage.rs3 } else stage
  let stage := if stage.opcode = "ADD" then
    { stage with rs1_value := regs stage.rs1, rs2_value := regs stage.rs2 } else stage
  let stage := if stage.opcode = "ADDL" then
    { stage with rs1_value := regs stage.rs1 } else stage
  let stage := if stage.opcode = "SUB" then
    { stage with rs1_value := regs stage.rs1, rs2_value := regs stage.rs2 } else stage
  let stage := if stage.opcode = "SUBL" then
    { stage with rs1_value := regs stage.rs1 } else stage
  let stage := if stage.opcode = "MUL" then
    { stage with rs1_value := regs stage.rs1, rs2_value := regs stage.rs2 } else stage
  let stage := if stage.opcode = "MOVC" then stage else stage
  let stage := if stage.opcode = "AND" then
    { stage with rs1_value := regs stage.rs1, rs2_value := regs stage.rs2 } else stage
  let stage := if stage.opcode = "OR" then
    { stage with rs1_value := regs stage.rs1, rs2_value := regs stage.rs2 } else stage
  let stage := if stage.opcode = "EXOR" then
    { stage with rs1_value := regs stage.rs1, rs2_value := regs stage.rs2 } else stage
  stage

/-- The function `decode`: under the guard on the Decode latch, the register
reads and the copy of the Decode latch into the Execute1 latch. -/
def decode (cpu : APEX_CPU) : APEX_CPU :=
  if !cpu.stage_DRF.busy && !cpu.stage_DRF.stalled then
    let stage := decode_reads cpu.regs cpu.stage_DRF
    { cpu with stage_DRF := stage, stage_EX1 := stage }
  else cpu

/-- The computations of `execute1`: the chain of `if (strcmp(..) == 0)`
blocks applied to the Execute1 latch, in source order. -/
def execute1_compute (stage : CPU_Stage) : CPU_Stage :=
  let stage := if stage.opcode = "STORE" then
    { stage with mem_address := wrap32 (stage.rs2_value + stage.imm) } else stage
  let stage := if stage.opcode = "LOAD" then
    { stage with mem_address := wrap32 (stage.rs1_value + stage.imm) } else stage
  let stage := if stage.opcode = "LDR" then
    { stage with mem_address := wrap32 (stage.rs1_value + stage.rs2_value) } else stage
  let stage := if stage.opcode = "STR" then
    { stage with mem_address := wrap32 (stage.rs2_value + stage.rs3_value) } else stage
  let stage := if stage.opcode = "ADD" then
    { stage with buffer := wrap32 (stage.rs1_value + stage.rs2_value) } else stage
  let stage := if stage.opcode = "SUB" then
    { stage with buffer := wrap32 (stage.rs1_value - stage.rs2_value) } else stage
  let stage := if stage.opcode = "SUBL" then
    { stage with buffer := wrap32 (stage.rs1_value - stage.imm) } else stage
  let stage := if stage.opcode = "ADDL" then
    { stage with buffer := wrap32 (stage.rs1_value + stage.imm) } else stage
  let stage := if stage.opcode = "MUL" then
    { stage with buffer := wrap32 (stage.rs1_value * stage.rs2_value) } else stage
  let stage := if stage.opcode = "AND" then
    { stage with buffer := Int.land stage.rs2_value stage.rs1_value } else stage
  let stage := if stage.opcode = "OR" then
    { stage with buffer := Int.lor stage.rs2_value stage.rs1_value } else stage
  let stage := if stage.opcode = "EXOR" then
    { stage with buffer := Int.xor stage.rs2_value stage.rs1_value } else stage
  let stage := if stage.opcode = "MOVC" then
    { stage with buffer := stage.imm } else stage
  stage

/-- The function `execute1`: under the guard on the Execute1 latch, the
computations and the copy of the Execute1 latch into the Execute2 latch. -/
def execute1 (cpu : APEX_CPU) : APEX_CPU :=
  if !cpu.stage_EX1.busy && !cpu.stage_EX1.stalled then
    let stage := execute1_compute cpu.stage_EX1
    { cpu with stage_EX1 := stage, stage_EX2 := stage }
  else cpu

/-- The function `execute2`: under the guard on the Execute2 latch, the copy
of the Execute2 latch into the Memory1 latch. -/
def execute2 (cpu : APEX_CPU) : APEX_CPU :=
  if !cpu.stage_EX2.busy && !cpu.stage_EX2.stalled then
    { cpu with stage_MEM1 := cpu.stage_EX2 }
  else cpu

/-- The data-memory writes of `memory1` (`STORE`, then `STR`). -/
def memory1_store (data_memory : Int → Int) (stage : CPU_Stage) : Int → Int :=
  let data_memory := if stage.opcode = "STORE" then
    Function.update data_memory stage.mem_address stage.rs1_value else data_memory
  let data_memory := if stage.opcode = "STR" then
    Function.update data_memory stage.mem_address stage.rs1_value else data_memory
  data_memory

/-- The data-memory reads of `memory1` (`LOAD`, then `LDR`, then the empty
`MOVC` block). -/
def memory1_load (data_memory : Int → Int) (stage : CPU_Stage) : CPU_Stage :=
  let stage := if stage.opcode = "LOAD" then
    { stage with buffer := data_memory stage.mem_address } else stage
  let stage := if stage.opcode = "LDR" then
    { stage with buffer := data_memory stage.mem_address } else stage
  let stage := if stage.opcode = "MOVC" then stage else stage
  stage

/-- The function `memory1`: under the guard on the Memory1 latch, the stores,
the loads and the copy of the Memory1 latch into the Memory2 latch. -/
def memory1 (cpu : APEX_CPU) : APEX_CPU :=
  if !cpu.stage_MEM1.busy && !cpu.stage_MEM1.stalled then
    let data_memory := memory1_store cpu.data_memory cpu.stage_MEM1
    let stage := memory1_load data_memory cpu.stage_MEM1
    { cpu with data_memory := data_memory, stage_MEM1 := stage, stage_MEM2 := stage }
  else cpu

/-- The function `memory2`: under the guard on the Memory2 latch, the empty
`STORE` block and the copy of the Memory2 latch into the Writeback latch. -/
def memory2 (cpu : APEX_CPU) : APEX_CPU :=
  if !cpu.stage_MEM2.busy && !cpu.stage_MEM2.stalled then
    let stage := if cpu.stage_MEM2.opcode = "STORE" then cpu.stage_MEM2 else cpu.stage_MEM2
    { cpu with stage_MEM2 := stage, stage_WB := stage }
  else cpu

/-- The register-file updates of `writeback`: the chain of
`if (strcmp(..) == 0)` blocks, in source order. -/
def writeback_regs (regs : Int → Int) (stage : CPU_Stage) : Int → Int :=
  let regs := if stage.opcode = "MOVC" then Function.update regs stage.rd stage.buffer else regs
  let regs := if stage.opcode = "ADD" then Function.update regs stage.rd stage.buffer else regs
  let regs := if stage.opcode = "ADDL" then Function.update regs stage.rd stage.buffer else regs
  let regs := if stage.opcode = "SUB" then Function.update regs stage.rd stage.buffer else regs
  let regs := if stage.opcode = "SUBL" then Function.update regs stage.rd stage.buffer else regs
  let regs := if stage.opcode = "MUL" then Function.update regs stage.rd stage.buffer else regs
  let regs := if stage.opcode = "AND" then Function.update regs stage.rd stage.buffer else regs
  let regs := if stage.opcode = "OR" then Function.update regs stage.rd stage.buffer else regs
  let regs := if stage.opcode = "EXOR" then Function.update regs stage.rd stage.buffer else regs
  let regs := if stage.opcode = "LOAD" then Function.update regs stage.rd stage.buffer else regs
  let regs := if stage.opcode = "LDR" then Function.update regs stage.rd stage.buffer else regs
  regs

/-- The function `writeback`: under the guard on the Writeback latch, the
register-file updates and `cpu->ins_completed++`. -/
def writeback (cpu : APEX_CPU) : APEX_CPU :=
  if !cpu.stage_WB.busy && !cpu.stage_WB.stalled then
    { cpu with
      regs := writeback_regs cpu.regs cpu.stage_WB
      ins_completed := cpu.ins_completed + 1 }
  else cpu

/-- One pass through the body of the loop of `APEX_cpu_run` after the exit
test: the seven stage functions from Writeback back to Fetch, then
`cpu->clock++`. -/
def cycle (cpu : APEX_CPU) : APEX_CPU :=
  let cpu := writeback cpu
  let cpu := memory2 cpu
  let cpu := memory1 cpu
  let cpu := execute2 cpu
  let cpu := execute1 cpu
  let cpu := decode cpu
  let cpu := fetch cpu
  { cpu with clock := cpu.clock + 1 }

/-- The function `APEX_cpu_run`: the `while (1)` loop, leaving through `break` when
`ins_completed == code_memory_size`.  The loop need not end, so the model
takes a bound on the number of passes; the result is the context at the
`break`, or `none` when the bound is used up first. -/
def APEX_cpu_run : Nat → APEX_CPU → Option APEX_CPU
  | fuel, cpu =>
    if cpu.ins_completed = cpu.code_memory_size then some cpu
    else match fuel with
      | 0 => none
      | fuel + 1 => APEX_cpu_run fuel (cycle cpu)

/-- The context after `t` passes through the loop body. -/
def cycles : Nat → APEX_CPU → APEX_CPU
  | 0, cpu => cpu
  | t + 1, cpu => cycle (cycles t cpu)

/-- The initial context of the claims: `APEX_cpu_init` on a code memory holding
a program of `n` instructions at the indices `0 .. n - 1`, with `clock` and
`ins_completed` starting at `0`. -/
def initial_context (code : Int → APEX_Instruction) (n : Nat) : APEX_CPU :=
  APEX_cpu_init code n 0 0

/-- The latch `l` holds the instruction at index `i` of `code`: it carries the
`pc` the instruction was fetched at and its fields, and is neither busy nor
stalled. -/
def Holds (code : Int → APEX_Instruction) (i : Nat) (l : CPU_Stage) : Prop :=
  l.pc = 4000 + 4 * (i : Int) ∧ l.opcode = (code i).opcode ∧ l.rd = (code i).rd ∧
  l.rs1 = (code i).rs1 ∧ l.rs2 = (code i).rs2 ∧ l.rs3 = (code i).rs3 ∧
  l.imm = (code i).imm ∧ l.busy = false ∧ l.stalled = false

/-- The latch of the stage number `s` (Decode is 1, Writeback is 6) after `t`
passes: still as `APEX_cpu_init` left it when `t < s`, holding the instruction
at index `t - s` otherwise. -/
def LatchAt (code : Int → APEX_Instruction) (s t : Nat) (l : CPU_Stage) : Prop :=
  (t < s → l = { zero_stage with busy := true }) ∧ (s ≤ t → Holds code (t - s) l)

/-- The shape of the context after `t` passes from the initial context. -/
structure Shape (code : Int → APEX_Instruction) (n : Nat) (t : Nat) (cpu : APEX_CPU) : Prop where
  clock : cpu.clock = t
  pc : cpu.pc = 4000 + 4 * (t : Int)
  ins_completed : cpu.ins_completed = ((t - 6 : Nat) : Int)
  code_memory : cpu.code_memory = code
  code_memory_size : cpu.code_memory_size = n
  regs_valid : cpu.regs_valid = fun _ => 16843009
  stage_F : ∃ p ins, cpu.stage_F = fetch_copy zero_stage p ins
  fetched : 1 ≤ t → cpu.stage_DRF =
    fetch_copy zero_stage (4000 + 4 * ((t - 1 : Nat) : Int)) (code ((t - 1 : Nat) : Int))
  stage_DRF : LatchAt code 1 t cpu.stage_DRF
  stage_EX1 : LatchAt code 2 t cpu.stage_EX1
  stage_EX2 : LatchAt code 3 t cpu.stage_EX2
  stage_MEM1 : LatchAt code 4 t cpu.stage_MEM1
  stage_MEM2 : LatchAt code 5 t cpu.stage_MEM2
  stage_WB : LatchAt code 6 t cpu.stage_WB

/-- The index into `code_memory` that `fetch` reads in the pass of the loop
body that starts in `cpu`: `get_code_index(cpu->pc)` in the context the six
earlier stage functions of the pass leave, when the guard of `fetch` holds
there. -/
def fetch_access (cpu : APEX_CPU) : Option Int :=
  let cpu := decode (execute1 (execute2 (memory1 (memory2 (writeback cpu)))))
  if !cpu.stage_F.busy && !cpu.stage_F.stalled then some (get_code_index cpu.pc) else none

/-- The indices into `code_memory` read by `fetch` during `APEX_cpu_run`, in
the order of the reads. -/
def fetch_trace : Nat → APEX_CPU → List Int
  | fuel, cpu =>
    if cpu.ins_completed = cpu.code_memory_size then []
    else match fuel with
      | 0 => []
      | fuel + 1 => (fetch_access cpu).toList ++ fetch_trace fuel (cycle cpu)

/-- Modelled from the spec: the code memory built by the loader
`create_code_memory`, which is not among the sources: the instructions of
`prog` at the indices `0 .. prog.length - 1`.  What the memory before and
behind that array holds is given by `rest`. -/
def code_of (prog : List APEX_Instruction) (rest : Int → APEX_Instruction) :
    Int → APEX_Instruction :=
  fun i => if i < 0 then rest i else
    match prog[i.toNat]? with
    | some ins => ins
    | none => rest i

/-- An instruction with the empty opcode and all fields zero. -/
def no_instruction : APEX_Instruction :=
  { opcode := "", rd := 0, rs1 := 0, rs2 := 0, rs3 := 0, imm := 0 }

/-- The program `MOVC R1,#10`. -/
def prog_movc : List APEX_Instruction :=
  [ { opcode := "MOVC", rd := 1, rs1 := 0, rs2 := 0, rs3 := 0, imm := 10 } ]

/-- The program `MOVC R1,#10; MOVC R2,#20; ADD R3,R1,R2`. -/
def prog_add : List APEX_Instruction :=
  [ { opcode := "MOVC", rd := 1, rs1 := 0, rs2 := 0, rs3 := 0, imm := 10 },
    { opcode := "MOVC", rd := 2, rs1 := 0, rs2 := 0, rs3 := 0, imm := 20 },
    { opcode := "ADD", rd := 3, rs1 := 1, rs2 := 2, rs3 := 0, imm := 0 } ]

/-- The program `MOVC R1,#99; STORE R1,R0,#0; LOAD R2,R0,#0`.  The operands of
`STORE` are `rs1, rs2, imm` and those of `LOAD` are `rd, rs1, imm`, as
`print_instruction` prints them. -/
def prog_store_load : List APEX_Instruction :=
  [ { opcode := "MOVC", rd := 1, rs1 := 0, rs2 := 0, rs3 := 0, imm := 99 },
    { opcode := "STORE", rd := 0, rs1 := 1, rs2 := 0, rs3 := 0, imm := 0 },
    { opcode := "LOAD", rd := 2, rs1 := 0, rs2 := 0, rs3 := 0, imm := 0 } ]

/-- The program `MOVC R1,#5; ADD R2,R1,R1`. -/
def prog_hazard : List APEX_Instruction :=
  [ { opcode := "MOVC", rd := 1, rs1 := 0, rs2 := 0, rs3 := 0, imm := 5 },
    { opcode := "ADD", rd := 2, rs1 := 1, rs2 := 1, rs3 := 0, imm := 0 } ]

/-- Two contexts after `t` passes of runs on code memories that hold the same
`n` instructions: the register files agree up to the last pass of the run,
the data memories as long as only instructions of the program have reached
Memory1, and each latch as long as what it holds is an instruction of the
program. -/
structure Agree (n t : Nat) (c1 c2 : APEX_CPU) : Prop where
  regs : t ≤ n + 6 → c1.regs = c2.regs
  data_memory : t ≤ n + 4 → c1.data_memory = c2.data_memory
  stage_DRF : t < n + 1 → c1.stage_DRF = c2.stage_DRF
  stage_EX1 : t < n + 2 → c1.stage_EX1 = c2.stage_EX1
  stage_EX2 : t < n + 3 → c1.stage_EX2 = c2.stage_EX2
  stage_MEM1 : t < n + 4 → c1.stage_MEM1 = c2.stage_MEM1
  stage_MEM2 : t < n + 5 → c1.stage_MEM2 = c2.stage_MEM2
  stage_WB : t < n + 6 → c1.stage_WB = c2.stage_WB

/-- The value an instruction of the sequential interpreter computes from the
register file: the immediate for `MOVC`, the 32-bit wraparound sum, difference
or product of the two source registers for `ADD`, `SUB`, `MUL`, their bitwise
and, or, exclusive or for `AND`, `OR`, `EXOR`; no value for another opcode. -/
def sequential_result (ins : APEX_Instruction) (regs : Int → Int) : Option Int :=
  if ins.opcode = "MOVC" then some ins.imm
  else if ins.opcode = "ADD" then some (wrap32 (regs ins.rs1 + regs ins.rs2))
  else if ins.opcode = "SUB" then some (wrap32 (regs ins.rs1 - regs ins.rs2))
  else if ins.opcode = "MUL" then some (wrap32 (regs ins.rs1 * regs ins.rs2))
  else if ins.opcode = "AND" then some (Int.land (regs ins.rs1) (regs ins.rs2))
  else if ins.opcode = "OR" then some (Int.lor (regs ins.rs1) (regs ins.rs2))
  else if ins.opcode = "EXOR" then some (Int.xor (regs ins.rs1) (regs ins.rs2))
  else none

/-- One instruction of the sequential (non-pipelined) interpreter of the
specification: the value of the instruction is computed from the current
register file and written to the destination register at once. -/
def sequential_step (ins : APEX_Instruction) (regs : Int → Int) : Int → Int :=
  match sequential_result ins regs with
  | some v => Function.update regs ins.rd v
  | none => regs

/-- The sequential interpreter of the specification: the register file after
the instructions at the indices `0 .. k - 1` of `code` have been executed one
at a time, in program order, from registers all zero. -/
def sequential_run (code : Int → APEX_Instruction) : Nat → Int → Int
  | 0 => fun _ => 0
  | k + 1 => sequential_step (code k) (sequential_run code k)

/-- A register index of the register file `regs[32]`. -/
@[reducible] def reg_index (r : Int) : Prop := 0 ≤ r ∧ r < 32

/-- The move and two-source arithmetic and logic instructions: `MOVC` with a
destination register index in `0 .. 31`, or one of `ADD`, `SUB`, `MUL`, `AND`,
`OR`, `EXOR` with destination and both source register indices in
`0 .. 31`. -/
@[reducible] def mov_alu (ins : APEX_Instruction) : Prop :=
  ins.opcode ∈ ["MOVC", "ADD", "SUB", "MUL", "AND", "OR", "EXOR"] ∧ reg_index ins.rd ∧
  (ins.opcode ≠ "MOVC" → reg_index ins.rs1 ∧ reg_index ins.rs2)

/-- The instruction reads register `r` in `decode`: it is not a `MOVC` and `r`
is one of its two source registers (instructions of `mov_alu`). -/
@[reducible] def reads (ins : APEX_Instruction) (r : Int) : Prop :=
  ins.opcode ≠ "MOVC" ∧ (ins.rs1 = r ∨ ins.rs2 = r)

/-- Among the first `n` instructions of `code`, every instruction that reads
the destination register of an earlier one has at least `d` instructions
between the two. -/
@[reducible] def separated (code : Int → APEX_Instruction) (n d : Nat) : Prop :=
  ∀ i : Nat, i < n → ∀ j : Nat, j < i → reads (code i) (code j).rd → j + d < i

/-- The operand values and results in the latches after `t` passes of a run
on a program of `mov_alu` instructions, in terms of the sequential
interpreter. -/
structure Values (code : Int → APEX_Instruction) (n t : Nat) (cpu : APEX_CPU) : Prop where
  regs : t ≤ n + 6 → cpu.regs = sequential_run code (t - 6)
  stage_EX1 : 2 ≤ t → t - 2 < n → (code ((t - 2 : Nat) : Int)).opcode ≠ "MOVC" →
    cpu.stage_EX1.rs1_value =
      sequential_run code (t - 2) (code ((t - 2 : Nat) : Int)).rs1 ∧
    cpu.stage_EX1.rs2_value =
      sequential_run code (t - 2) (code ((t - 2 : Nat) : Int)).rs2
  stage_EX2 : 3 ≤ t → t - 3 < n →
    sequential_result (code ((t - 3 : Nat) : Int)) (sequential_run code (t - 3)) =
      some cpu.stage_EX2.buffer
  stage_MEM1 : 4 ≤ t → t - 4 < n →
    sequential_result (code ((t - 4 : Nat) : Int)) (sequential_run code (t - 4)) =
      some cpu.stage_MEM1.buffer
  stage_MEM2 : 5 ≤ t → t - 5 < n →
    sequential_result (code ((t - 5 : Nat) : Int)) (sequential_run code (t - 5)) =
      some cpu.stage_MEM2.buffer
  stage_WB : 6 ≤ t → t - 6 < n →
    sequential_result (code ((t - 6 : Nat) : Int)) (sequential_run code (t - 6)) =
      some cpu.stage_WB.buffer

/-- A program of nine `mov_alu` instructions: `MOVC R1,#10; MOVC R2,#20`, six
further `MOVC` to the registers `R4 .. R9`, then `ADD R3,R1,R2`, which has six
instructions between it and the later of the two `MOVC` it depends on. -/
def prog_spaced : List APEX_Instruction :=
  [ { opcode := "MOVC", rd := 1, rs1 := 0, rs2 := 0, rs3 := 0, imm := 10 },
    { opcode := "MOVC", rd := 2, rs1 := 0, rs2 := 0, rs3 := 0, imm := 20 },
    { opcode := "MOVC", rd := 4, rs1 := 0, rs2 := 0, rs3 := 0, imm := 1 },
    { opcode := "MOVC", rd := 5, rs1 := 0, rs2 := 0, rs3 := 0, imm := 2 },
    { opcode := "MOVC", rd := 6, rs1 := 0, rs2 := 0, rs3 := 0, imm := 3 },
    { opcode := "MOVC", rd := 7, rs1 := 0, rs2 := 0, rs3 := 0, imm := 4 },
    { opcode := "MOVC", rd := 8, rs1 := 0, rs2 := 0, rs3 := 0, imm := 5 },
    { opcode := "MOVC", rd := 9, rs1 := 0, rs2 := 0, rs3 := 0, imm := 6 },
    { opcode := "ADD", rd := 3, rs1 := 1, rs2 := 2, rs3 := 0, imm := 0 } ]

/-- A context whose Writeback latch holds an `ADD` to `R3` with result 30. -/
def writeback_sample : APEX_CPU :=
  { initial_context (fun _ => no_instruction) 1 with
    stage_WB := { zero_stage with opcode := "ADD", rd := 3, buffer := 30 } }

/-- A context whose Execute1 latch holds a `SUB` of 1 from the least 32-bit
integer. -/
def execute1_sample : APEX_CPU :=
  { initial_context (fun _ => no_instruction) 1 with
    stage_EX1 := { zero_stage with opcode := "SUB", rs1_value := -2147483648, rs2_value := 1 } }

/-- A context with register `Rk` holding `k + 100` whose Decode latch holds
`STR R1,R2,R3`. -/
def decode_sample : APEX_CPU :=
  { initial_context (fun _ => no_instruction) 1 with
    regs := fun r => r + 100
    stage_DRF := { zero_stage with opcode := "STR", rs1 := 1, rs2 := 2, rs3 := 3 } }

/-- A context whose Memory1 latch holds a `STORE` of the value 99 to the
address 7. -/
def memory1_sample : APEX_CPU :=
  { initial_context (fun _ => no_instruction) 1 with
    stage_MEM1 := { zero_stage with opcode := "STORE", rs1_value := 99, mem_address := 7 } }

/-- A context whose Execute2 latch holds a `MUL` with result 6 and whose
Memory2 latch holds a `LOAD` with loaded value 7. -/
def passthrough_sample : APEX_CPU :=
  { initial_context (fun _ => no_instruction) 1 with
    stage_EX2 := { zero_stage with opcode := "MUL", rd := 3, buffer := 6 }
    stage_MEM2 := { zero_stage with opcode := "LOAD", rd := 4, buffer := 7 } }

/-- The latch `cpu->stage[s]` by its number in the enumeration of the header:
`F = 0`, `DRF = 1`, `EX1 = 2`, `EX2 = 3`, `MEM1 = 4`, `MEM2 = 5`, `WB = 6`
(a number above 6 stands for the last latch as well). -/
def stage_at (cpu : APEX_CPU) : Nat → CPU_Stage
  | 0 => cpu.stage_F
  | 1 => cpu.stage_DRF
  | 2 => cpu.stage_EX1
  | 3 => cpu.stage_EX2
  | 4 => cpu.stage_MEM1
  | 5 => cpu.stage_MEM2
  | _ => cpu.stage_WB

/-- The stage function that works on the latch `cpu->stage[s]`. -/
def stage_function : Nat → APEX_CPU → APEX_CPU
  | 0 => fetch
  | 1 => decode
  | 2 => execute1
  | 3 => execute2
  | 4 => memory1
  | 5 => memory2
  | _ => writeback

/-- The context with the opcode `op` put into the latch `cpu->stage[s]`. -/
def with_opcode (cpu : APEX_CPU) (s : Nat) (op : String) : APEX_CPU :=
  match s with
  | 0 => { cpu with stage_F := { cpu.stage_F with opcode := op } }
  | 1 => { cpu with stage_DRF := { cpu.stage_DRF with opcode := op } }
  | 2 => { cpu with stage_EX1 := { cpu.stage_EX1 with opcode := op } }
  | 3 => { cpu with stage_EX2 := { cpu.stage_EX2 with opcode := op } }
  | 4 => { cpu with stage_MEM1 := { cpu.stage_MEM1 with opcode := op } }
  | 5 => { cpu with stage_MEM2 := { cpu.stage_MEM2 with opcode := op } }
  | _ => { cpu with stage_WB := { cpu.stage_WB with opcode := op } }

/-- A step of a driver of the pipeline: a call of one stage function, given by
the number of its latch, or a whole pass of the loop body of
`APEX_cpu_run`. -/
inductive Driver_Step where
  | call (s : Nat)
  | pass
deriving DecidableEq

/-- The context after a step of a driver. -/
def driver_step : Driver_Step → APEX_CPU → APEX_CPU
  | Driver_Step.call s, cpu => stage_function s cpu
  | Driver_Step.pass, cpu => cycle cpu

/-- The context after a sequence of steps of a driver. -/
def driver_steps (steps : List Driver_Step) (cpu : APEX_CPU) : APEX_CPU :=
  steps.foldl (fun c st => driver_step st c) cpu

/-- No latch of the context has `stalled` set. -/
def Unstalled (cpu : APEX_CPU) : Prop :=
  cpu.stage_F.stalled = false ∧ cpu.stage_DRF.stalled = false ∧
  cpu.stage_EX1.stalled = false ∧ cpu.stage_EX2.stalled = false ∧
  cpu.stage_MEM1.stalled = false ∧ cpu.stage_MEM2.stalled = false ∧
  cpu.stage_WB.stalled = false

/-- The instruction writes register `r` in `writeback`: its opcode is one of
those for which `writeback` assigns `regs[rd]`, and `rd` is `r`. -/
@[reducible] def writes_reg (ins : APEX_Instruction) (r : Int) : Prop :=
  ins.opcode ∈ ["MOVC", "ADD", "ADDL", "SUB", "SUBL", "MUL", "AND", "OR", "EXOR", "LOAD",
    "LDR"] ∧ ins.rd = r

/-- The opcodes for which `decode` reads `regs[rs1]`. -/
@[reducible] def reads_rs1 (ins : APEX_Instruction) : Prop :=
  ins.opcode ∈ ["STORE", "LOAD", "LDR", "STR", "ADD", "ADDL", "SUB", "SUBL", "MUL", "AND",
    "OR", "EXOR"]

/-- The opcodes for which `decode` reads `regs[rs2]`. -/
@[reducible] def reads_rs2 (ins : APEX_Instruction) : Prop :=
  ins.opcode ∈ ["STORE", "LDR", "STR", "ADD", "SUB", "MUL", "AND", "OR", "EXOR"]

/-- The opcode for which `decode` reads `regs[rs3]`. -/
@[reducible] def reads_rs3 (ins : APEX_Instruction) : Prop :=
  ins.opcode = "STR"

/-- The writeback of the instruction `k` lies between the writeback of the
producer `j` and the decode of the consumer `i`: writeback of `k` is in the
pass `k + 7`, decode of `i` in the pass `i + 2`, and in a pass writeback
comes before decode. -/
@[reducible] def writeback_between (j i k : Nat) : Prop :=
  (j < k ∧ k + 5 ≤ i) ∨ (i < k + 5 ∧ k < j)

/-- The program `MOVC R1,#5`, four `MOVC` to the registers `R4 .. R7`, then
`ADD R2,R1,R1`, five instructions after the `MOVC` it depends on. -/
def prog_window : List APEX_Instruction :=
  [ { opcode := "MOVC", rd := 1, rs1 := 0, rs2 := 0, rs3 := 0, imm := 5 },
    { opcode := "MOVC", rd := 4, rs1 := 0, rs2 := 0, rs3 := 0, imm := 1 },
    { opcode := "MOVC", rd := 5, rs1 := 0, rs2 := 0, rs3 := 0, imm := 2 },
    { opcode := "MOVC", rd := 6, rs1 := 0, rs2 := 0, rs3 := 0, imm := 3 },
    { opcode := "MOVC", rd := 7, rs1 := 0, rs2 := 0, rs3 := 0, imm := 4 },
    { opcode := "ADD", rd := 2, rs1 := 1, rs2 := 1, rs3 := 0, imm := 0 } ]

/-- The program `MOVC R1,#1; MOVC R1,#2; ADD R2,R1,R1`: two writers of `R1`
directly before an instruction that reads it. -/
def prog_overwrite : List APEX_Instruction :=
  [ { opcode := "MOVC", rd := 1, rs1 := 0, rs2 := 0, rs3 := 0, imm := 1 },
    { opcode := "MOVC", rd := 1, rs1 := 0, rs2 := 0, rs3 := 0, imm := 2 },
    { opcode := "ADD", rd := 2, rs1 := 1, rs2 := 1, rs3 := 0, imm := 0 } ]

set_option maxRecDepth 10000

/-! ### Arithmetic and the register file -/

/-- The result of `wrap32` lies in the range of a 32-bit signed integer. -/
theorem wrap32_range (x : Int) : -2147483648 ≤ wrap32 x ∧ wrap32 x < 2147483648 := by
  unfold wrap32; omega

/-- On the range of a 32-bit signed integer `wrap32` is the identity. -/
theorem wrap32_of_range (x : Int) (h1 : -2147483648 ≤ x) (h2 : x < 2147483648) :
    wrap32 x = x := by
  unfold wrap32; omega

/-- The result of `wrap32` differs from its argument by a multiple of `2 ^ 32`. -/
theorem wrap32_congr (x : Int) : (wrap32 x - x) % 4294967296 = 0 := by
  unfold wrap32; omega

/-- Bitwise and of integers is commutative. -/
theorem land_comm (a b : Int) : Int.land a b = Int.land b a := by
  cases a <;> cases b <;> simp [Int.land, Nat.land_comm, Nat.lor_comm]

/-- Bitwise or of integers is commutative. -/
theorem lor_comm (a b : Int) : Int.lor a b = Int.lor b a := by
  cases a <;> cases b <;> simp [Int.lor, Nat.land_comm, Nat.lor_comm]

/-- Bitwise exclusive or of integers is commutative. -/
theorem xor_comm (a b : Int) : Int.xor a b = Int.xor b a := by
  cases a <;> cases b <;> simp [Int.xor, Nat.xor_comm]

/-- A conditional update of one cell leaves the other cells alone. -/
theorem ite_update_of_ne {c : Prop} [Decidable c] (f : Int → Int) (a b r : Int) (h : r ≠ a) :
    (if c then Function.update f a b else f) r = f r := by
  split
  · exact Function.update_noteq h b f
  · rfl

/-- The register-file updates of `writeback` touch no register but `rd`. -/
theorem writeback_regs_of_ne (regs : Int → Int) (s : CPU_Stage) (r : Int) (h : r ≠ s.rd) :
    writeback_regs regs s r = regs r := by
  simp only [writeback_regs, ite_update_of_ne _ _ _ _ h]

/-- For an opcode with a result the register-file updates of `writeback` amount to
one assignment `regs[rd] = buffer`. -/
theorem writeback_regs_writes (regs : Int → Int) (s : CPU_Stage)
    (h : s.opcode ∈ ["MOVC", "ADD", "ADDL", "SUB", "SUBL", "MUL", "AND", "OR", "EXOR",
      "LOAD", "LDR"]) :
    writeback_regs regs s = Function.update regs s.rd s.buffer := by
  simp only [List.mem_cons, List.mem_singleton, List.not_mem_nil, or_false] at h
  rcases h with h | h | h | h | h | h | h | h | h | h | h <;> simp [writeback_regs, h]

/-- For any other opcode the register-file updates of `writeback` do nothing. -/
theorem writeback_regs_skips (regs : Int → Int) (s : CPU_Stage)
    (h : s.opcode ∉ ["MOVC", "ADD", "ADDL", "SUB", "SUBL", "MUL", "AND", "OR", "EXOR",
      "LOAD", "LDR"]) :
    writeback_regs regs s = regs := by
  simp only [List.mem_cons, List.mem_singleton, List.not_mem_nil, or_false, not_or] at h
  simp [writeback_regs, h]

/-! ### Fields the stage computations leave alone -/

/-- The register reads `decode_reads` change none of the fields but the three operand values. -/
theorem decode_reads_frame (regs : Int → Int) (s : CPU_Stage) :
    (decode_reads regs s).pc = s.pc ∧ (decode_reads regs s).opcode = s.opcode ∧
    (decode_reads regs s).rs1 = s.rs1 ∧ (decode_reads regs s).rs2 = s.rs2 ∧
    (decode_reads regs s).rs3 = s.rs3 ∧ (decode_reads regs s).rd = s.rd ∧
    (decode_reads regs s).imm = s.imm ∧ (decode_reads regs s).buffer = s.buffer ∧
    (decode_reads regs s).mem_address = s.mem_address ∧
    (decode_reads regs s).busy = s.busy ∧ (decode_reads regs s).stalled = s.stalled := by
  simp only [decode_reads, apply_ite CPU_Stage.pc, apply_ite CPU_Stage.opcode,
    apply_ite CPU_Stage.rs1, apply_ite CPU_Stage.rs2, apply_ite CPU_Stage.rs3,
    apply_ite CPU_Stage.rd, apply_ite CPU_Stage.imm, apply_ite CPU_Stage.buffer,
    apply_ite CPU_Stage.mem_address, apply_ite CPU_Stage.busy, apply_ite CPU_Stage.stalled,
    ite_self, and_self]

/-- The computations `execute1_compute` change none of the fields but `buffer` and
`mem_address`. -/
theorem execute1_compute_frame (s : CPU_Stage) :
    (execute1_compute s).pc = s.pc ∧ (execute1_compute s).opcode = s.opcode ∧
    (execute1_compute s).rs1 = s.rs1 ∧ (execute1_compute s).rs2 = s.rs2 ∧
    (execute1_compute s).rs3 = s.rs3 ∧ (execute1_compute s).rd = s.rd ∧
    (execute1_compute s).imm = s.imm ∧ (execute1_compute s).rs1_value = s.rs1_value ∧
    (execute1_compute s).rs2_value = s.rs2_value ∧
    (execute1_compute s).rs3_value = s.rs3_value ∧
    (execute1_compute s).busy = s.busy ∧ (execute1_compute s).stalled = s.stalled := by
  simp only [execute1_compute, apply_ite CPU_Stage.pc, apply_ite CPU_Stage.opcode,
    apply_ite CPU_Stage.rs1, apply_ite CPU_Stage.rs2, apply_ite CPU_Stage.rs3,
    apply_ite CPU_Stage.rd, apply_ite CPU_Stage.imm, apply_ite CPU_Stage.rs1_value,
    apply_ite CPU_Stage.rs2_value, apply_ite CPU_Stage.rs3_value,
    apply_ite CPU_Stage.busy, apply_ite CPU_Stage.stalled, ite_self, and_self]

/-- The loads `memory1_load` change no field but `buffer`. -/
theorem memory1_load_frame (dm : Int → Int) (s : CPU_Stage) :
    (memory1_load dm s).pc = s.pc ∧ (memory1_load dm s).opcode = s.opcode ∧
    (memory1_load dm s).rs1 = s.rs1 ∧ (memory1_load dm s).rs2 = s.rs2 ∧
    (memory1_load dm s).rs3 = s.rs3 ∧ (memory1_load dm s).rd = s.rd ∧
    (memory1_load dm s).imm = s.imm ∧ (memory1_load dm s).rs1_value = s.rs1_value ∧
    (memory1_load dm s).rs2_value = s.rs2_value ∧
    (memory1_load dm s).rs3_value = s.rs3_value ∧
    (memory1_load dm s).mem_address = s.mem_address ∧
    (memory1_load dm s).busy = s.busy ∧ (memory1_load dm s).stalled = s.stalled := by
  simp only [memory1_load, apply_ite CPU_Stage.pc, apply_ite CPU_Stage.opcode,
    apply_ite CPU_Stage.rs1, apply_ite CPU_Stage.rs2, apply_ite CPU_Stage.rs3,
    apply_ite CPU_Stage.rd, apply_ite CPU_Stage.imm, apply_ite CPU_Stage.rs1_value,
    apply_ite CPU_Stage.rs2_value, apply_ite CPU_Stage.rs3_value,
    apply_ite CPU_Stage.mem_address, apply_ite CPU_Stage.busy, apply_ite CPU_Stage.stalled,
    ite_self, and_self]

/-! ### The stage functions, field by field -/

/-- Every field of the context after `fetch`, in terms of the context before. -/
theorem fetch_fields (cpu : APEX_CPU) :
    (fetch cpu).clock = cpu.clock ∧
    (fetch cpu).pc = (if !cpu.stage_F.busy && !cpu.stage_F.stalled
        then cpu.pc + 4 else cpu.pc) ∧
    (fetch cpu).regs = cpu.regs ∧
    (fetch cpu).regs_valid = cpu.regs_valid ∧
    (fetch cpu).stage_F = (if !cpu.stage_F.busy && !cpu.stage_F.stalled
        then fetch_copy cpu.stage_F cpu.pc (cpu.code_memory (get_code_index cpu.pc)) else cpu.stage_F) ∧
    (fetch cpu).stage_DRF = (if !cpu.stage_F.busy && !cpu.stage_F.stalled
        then fetch_copy cpu.stage_F cpu.pc (cpu.code_memory (get_code_index cpu.pc)) else cpu.stage_DRF) ∧
    (fetch cpu).stage_EX1 = cpu.stage_EX1 ∧
    (fetch cpu).stage_EX2 = cpu.stage_EX2 ∧
    (fetch cpu).stage_MEM1 = cpu.stage_MEM1 ∧
    (fetch cpu).stage_MEM2 = cpu.stage_MEM2 ∧
    (fetch cpu).stage_WB = cpu.stage_WB ∧
    (fetch cpu).code_memory = cpu.code_memory ∧
    (fetch cpu).code_memory_size = cpu.code_memory_size ∧
    (fetch cpu).data_memory = cpu.data_memory ∧
    (fetch cpu).ins_completed = cpu.ins_completed := by
  unfold fetch
  split <;> simp

/-- Every field of the context after `decode`, in terms of the context before. -/
theorem decode_fields (cpu : APEX_CPU) :
    (decode cpu).clock = cpu.clock ∧
    (decode cpu).pc = cpu.pc ∧
    (decode cpu).regs = cpu.regs ∧
    (decode cpu).regs_valid = cpu.regs_valid ∧
    (decode cpu).stage_F = cpu.stage_F ∧
    (decode cpu).stage_DRF = (if !cpu.stage_DRF.busy && !cpu.stage_DRF.stalled
        then decode_reads cpu.regs cpu.stage_DRF else cpu.stage_DRF) ∧
    (decode cpu).stage_EX1 = (if !cpu.stage_DRF.busy && !cpu.stage_DRF.stalled
        then decode_reads cpu.regs cpu.stage_DRF else cpu.stage_EX1) ∧
    (decode cpu).stage_EX2 = cpu.stage_EX2 ∧
    (decode cpu).stage_MEM1 = cpu.stage_MEM1 ∧
    (decode cpu).stage_MEM2 = cpu.stage_MEM2 ∧
    (decode cpu).stage_WB = cpu.stage_WB ∧
    (decode cpu).code_memory = cpu.code_memory ∧
    (decode cpu).code_memory_size = cpu.code_memory_size ∧
    (decode cpu).data_memory = cpu.data_memory ∧
    (decode cpu).ins_completed = cpu.ins_completed := by
  unfold decode
  split <;> simp

/-- Every field of the context after `execute1`, in terms of the context before. -/
theorem execute1_fields (cpu : APEX_CPU) :
    (execute1 cpu).clock = cpu.clock ∧
    (execute1 cpu).pc = cpu.pc ∧
    (execute1 cpu).regs = cpu.regs ∧
    (execute1 cpu).regs_valid = cpu.regs_valid ∧
    (execute1 cpu).stage_F = cpu.stage_F ∧
    (execute1 cpu).stage_DRF = cpu.stage_DRF ∧
    (execute1 cpu).stage_EX1 = (if !cpu.stage_EX1.busy && !cpu.stage_EX1.stalled
        then execute1_compute cpu.stage_EX1 else cpu.stage_EX1) ∧
    (execute1 cpu).stage_EX2 = (if !cpu.stage_EX1.busy && !cpu.stage_EX1.stalled
        then execute1_compute cpu.stage_EX1 else cpu.stage_EX2) ∧
    (execute1 cpu).stage_MEM1 = cpu.stage_MEM1 ∧
    (execute1 cpu).stage_MEM2 = cpu.stage_MEM2 ∧
    (execute1 cpu).stage_WB = cpu.stage_WB ∧
    (execute1 cpu).code_memory = cpu.code_memory ∧
    (execute1 cpu).code_memory_size = cpu.code_memory_size ∧
    (execute1 cpu).data_memory = cpu.data_memory ∧
    (execute1 cpu).ins_completed = cpu.ins_completed := by
  unfold execute1
  split <;> simp

/-- Every field of the context after `execute2`, in terms of the context before. -/
theorem execute2_fields (cpu : APEX_CPU) :
    (execute2 cpu).clock = cpu.clock ∧
    (execute2 cpu).pc = cpu.pc ∧
    (execute2 cpu).regs = cpu.regs ∧
    (execute2 cpu).regs_valid = cpu.regs_valid ∧
    (execute2 cpu).stage_F = cpu.stage_F ∧
    (execute2 cpu).stage_DRF = cpu.stage_DRF ∧
    (execute2 cpu).stage_EX1 = cpu.stage_EX1 ∧
    (execute2 cpu).stage_EX2 = cpu.stage_EX2 ∧
    (execute2 cpu).stage_MEM1 = (if !cpu.stage_EX2.busy && !cpu.stage_EX2.stalled
        then cpu.stage_EX2 else cpu.stage_MEM1) ∧
    (execute2 cpu).stage_MEM2 = cpu.stage_MEM2 ∧
    (execute2 cpu).stage_WB = cpu.stage_WB ∧
    (execute2 cpu).code_memory = cpu.code_memory ∧
    (execute2 cpu).code_memory_size = cpu.code_memory_size ∧
    (execute2 cpu).data_memory = cpu.data_memory ∧
    (execute2 cpu).ins_completed = cpu.ins_completed := by
  unfold execute2
  split <;> simp

/-- Every field of the context after `memory1`, in terms of the context before. -/
theorem memory1_fields (cpu : APEX_CPU) :
    (memory1 cpu).clock = cpu.clock ∧
    (memory1 cpu).pc = cpu.pc ∧
    (memory1 cpu).regs = cpu.regs ∧
    (memory1 cpu).regs_valid = cpu.regs_valid ∧
    (memory1 cpu).stage_F = cpu.stage_F ∧
    (memory1 cpu).stage_DRF = cpu.stage_DRF ∧
    (memory1 cpu).stage_EX1 = cpu.stage_EX1 ∧
    (memory1 cpu).stage_EX2 = cpu.stage_EX2 ∧
    (memory1 cpu).stage_MEM1 = (if !cpu.stage_MEM1.busy && !cpu.stage_MEM1.stalled
        then memory1_load (memory1_store cpu.data_memory cpu.stage_MEM1) cpu.stage_MEM1 else cpu.stage_MEM1) ∧
    (memory1 cpu).stage_MEM2 = (if !cpu.stage_MEM1.busy && !cpu.stage_MEM1.stalled
        then memory1_load (memory1_store cpu.data_memory cpu.stage_MEM1) cpu.stage_MEM1 else cpu.stage_MEM2) ∧
    (memory1 cpu).stage_WB = cpu.stage_WB ∧
    (memory1 cpu).code_memory = cpu.code_memory ∧
    (memory1 cpu).code_memory_size = cpu.code_memory_size ∧
    (memory1 cpu).data_memory = (if !cpu.stage_MEM1.busy && !cpu.stage_MEM1.stalled
        then memory1_store cpu.data_memory cpu.stage_MEM1 else cpu.data_memory) ∧
    (memory1 cpu).ins_completed = cpu.ins_completed := by
  unfold memory1
  split <;> simp

/-- Every field of the context after `memory2`, in terms of the context before. -/
theorem memory2_fields (cpu : APEX_CPU) :
    (memory2 cpu).clock = cpu.clock ∧
    (memory2 cpu).pc = cpu.pc ∧
    (memory2 cpu).regs = cpu.regs ∧
    (memory2 cpu).regs_valid = cpu.regs_valid ∧
    (memory2 cpu).stage_F = cpu.stage_F ∧
    (memory2 cpu).stage_DRF = cpu.stage_DRF ∧
    (memory2 cpu).stage_EX1 = cpu.stage_EX1 ∧
    (memory2 cpu).stage_EX2 = cpu.stage_EX2 ∧
    (memory2 cpu).stage_MEM1 = cpu.stage_MEM1 ∧
    (memory2 cpu).stage_MEM2 = cpu.stage_MEM2 ∧
    (memory2 cpu).stage_WB = (if !cpu.stage_MEM2.busy && !cpu.stage_MEM2.stalled
        then cpu.stage_MEM2 else cpu.stage_WB) ∧
    (memory2 cpu).code_memory = cpu.code_memory ∧
    (memory2 cpu).code_memory_size = cpu.code_memory_size ∧
    (memory2 cpu).data_memory = cpu.data_memory ∧
    (memory2 cpu).ins_completed = cpu.ins_completed := by
  unfold memory2
  split <;> simp

/-- Every field of the context after `writeback`, in terms of the context before. -/
theorem writeback_fields (cpu : APEX_CPU) :
    (writeback cpu).clock = cpu.clock ∧
    (writeback cpu).pc = cpu.pc ∧
    (writeback cpu).regs = (if !cpu.stage_WB.busy && !cpu.stage_WB.stalled
        then writeback_regs cpu.regs cpu.stage_WB else cpu.regs) ∧
    (writeback cpu).regs_valid = cpu.regs_valid ∧
    (writeback cpu).stage_F = cpu.stage_F ∧
    (writeback cpu).stage_DRF = cpu.stage_DRF ∧
    (writeback cpu).stage_EX1 = cpu.stage_EX1 ∧
    (writeback cpu).stage_EX2 = cpu.stage_EX2 ∧
    (writeback cpu).stage_MEM1 = cpu.stage_MEM1 ∧
    (writeback cpu).stage_MEM2 = cpu.stage_MEM2 ∧
    (writeback cpu).stage_WB = cpu.stage_WB ∧
    (writeback cpu).code_memory = cpu.code_memory ∧
    (writeback cpu).code_memory_size = cpu.code_memory_size ∧
    (writeback cpu).data_memory = cpu.data_memory ∧
    (writeback cpu).ins_completed = (if !cpu.stage_WB.busy && !cpu.stage_WB.stalled
        then cpu.ins_completed + 1 else cpu.ins_completed) := by
  unfold writeback
  split <;> simp

/-- Every field of the context after one pass of the loop body, in terms of
the context before: each stage function tests the flags its latch had at the
start of the pass. -/
theorem cycle_fields (cpu : APEX_CPU) :
    (cycle cpu).clock = cpu.clock + 1 ∧
    (cycle cpu).pc = (if !cpu.stage_F.busy && !cpu.stage_F.stalled then cpu.pc + 4 else cpu.pc) ∧
    (cycle cpu).regs = (if !cpu.stage_WB.busy && !cpu.stage_WB.stalled
        then writeback_regs cpu.regs cpu.stage_WB else cpu.regs) ∧
    (cycle cpu).regs_valid = cpu.regs_valid ∧
    (cycle cpu).stage_F = (if !cpu.stage_F.busy && !cpu.stage_F.stalled
        then fetch_copy cpu.stage_F cpu.pc (cpu.code_memory (get_code_index cpu.pc))
        else cpu.stage_F) ∧
    (cycle cpu).stage_DRF = (if !cpu.stage_F.busy && !cpu.stage_F.stalled
        then fetch_copy cpu.stage_F cpu.pc (cpu.code_memory (get_code_index cpu.pc))
        else if !cpu.stage_DRF.busy && !cpu.stage_DRF.stalled
        then decode_reads (cycle cpu).regs cpu.stage_DRF else cpu.stage_DRF) ∧
    (cycle cpu).stage_EX1 = (if !cpu.stage_DRF.busy && !cpu.stage_DRF.stalled
        then decode_reads (cycle cpu).regs cpu.stage_DRF
        else if !cpu.stage_EX1.busy && !cpu.stage_EX1.stalled
        then execute1_compute cpu.stage_EX1 else cpu.stage_EX1) ∧
    (cycle cpu).stage_EX2 = (if !cpu.stage_EX1.busy && !cpu.stage_EX1.stalled
        then execute1_compute cpu.stage_EX1 else cpu.stage_EX2) ∧
    (cycle cpu).stage_MEM1 = (if !cpu.stage_EX2.busy && !cpu.stage_EX2.stalled
        then cpu.stage_EX2
        else if !cpu.stage_MEM1.busy && !cpu.stage_MEM1.stalled
        then memory1_load (memory1_store cpu.data_memory cpu.stage_MEM1) cpu.stage_MEM1 else cpu.stage_MEM1) ∧
    (cycle cpu).stage_MEM2 = (if !cpu.stage_MEM1.busy && !cpu.stage_MEM1.stalled
        then memory1_load (memory1_store cpu.data_memory cpu.stage_MEM1) cpu.stage_MEM1 else cpu.stage_MEM2) ∧
    (cycle cpu).stage_WB = (if !cpu.stage_MEM2.busy && !cpu.stage_MEM2.stalled
        then cpu.stage_MEM2 else cpu.stage_WB) ∧
    (cycle cpu).code_memory = cpu.code_memory ∧
    (cycle cpu).code_memory_size = cpu.code_memory_size ∧
    (cycle cpu).data_memory = (if !cpu.stage_MEM1.busy && !cpu.stage_MEM1.stalled
        then memory1_store cpu.data_memory cpu.stage_MEM1 else cpu.data_memory) ∧
    (cycle cpu).ins_completed = (if !cpu.stage_WB.busy && !cpu.stage_WB.stalled
        then cpu.ins_completed + 1 else cpu.ins_completed) := by
  simp only [cycle, fetch_fields, decode_fields, execute1_fields, execute2_fields,
    memory1_fields, memory2_fields, writeback_fields, and_self]

/-! ### The shape of the pipeline after `t` passes -/

/-- The code index of the `pc` of the instruction number `i`. -/
theorem get_code_index_pc (i : Nat) : get_code_index (4000 + 4 * (i : Int)) = i := by
  unfold get_code_index
  have h : (4000 + 4 * (i : Int) - 4000) = 4 * (i : Int) := by ring
  rw [h]
  exact Int.mul_tdiv_cancel_left _ (by decide)

/-- A further pass may be put first as well as last. -/
theorem cycles_succ_cycle (t : Nat) (cpu : APEX_CPU) :
    cycles (t + 1) cpu = cycles t (cycle cpu) := by
  induction t generalizing cpu with
  | zero => rfl
  | succ k ih =>
    show cycle (cycles (k + 1) cpu) = cycle (cycles k (cycle cpu))
    rw [ih]

/-- A latch holding an instruction passes the guard of its stage function. -/
theorem holds_enabled {code : Int → APEX_Instruction} {i : Nat} {l : CPU_Stage}
    (h : Holds code i l) : (!l.busy && !l.stalled) = true := by
  obtain ⟨-, -, -, -, -, -, -, hb, hs⟩ := h
  simp [hb, hs]

/-- The register reads keep the instruction a latch holds. -/
theorem holds_after_decode {code : Int → APEX_Instruction} {i : Nat} {l : CPU_Stage}
    (h : Holds code i l) (regs : Int → Int) : Holds code i (decode_reads regs l) := by
  unfold Holds at *
  simp only [decode_reads_frame]
  exact h

/-- The computations of `execute1` keep the instruction a latch holds. -/
theorem holds_after_execute1 {code : Int → APEX_Instruction} {i : Nat} {l : CPU_Stage}
    (h : Holds code i l) : Holds code i (execute1_compute l) := by
  unfold Holds at *
  simp only [execute1_compute_frame]
  exact h

/-- The loads of `memory1` keep the instruction a latch holds. -/
theorem holds_after_memory1 {code : Int → APEX_Instruction} {i : Nat} {l : CPU_Stage}
    (h : Holds code i l) (dm : Int → Int) : Holds code i (memory1_load dm l) := by
  unfold Holds at *
  simp only [memory1_load_frame]
  exact h

/-- The latch `fetch` builds for the instruction number `i` holds it. -/
theorem holds_of_fetch (code : Int → APEX_Instruction) (i : Nat) :
    Holds code i (fetch_copy zero_stage (4000 + 4 * (i : Int)) (code i)) := by
  simp [Holds, fetch_copy, zero_stage]

/-- A latch that no instruction has reached fails the guard of its stage function. -/
theorem latch_disabled {code : Int → APEX_Instruction} {s t : Nat} {l : CPU_Stage}
    (h : LatchAt code s t l) (hlt : t < s) : (!l.busy && !l.stalled) = false := by
  rw [h.1 hlt]; rfl

/-- A latch that is overwritten by its predecessor, and that otherwise only its
own stage function touches. -/
theorem latch_step {code : Int → APEX_Instruction} {s t : Nat} {prev cur : CPU_Stage}
    (f g : CPU_Stage → CPU_Stage)
    (hf : ∀ i l, Holds code i l → Holds code i (f l))
    (hprev : LatchAt code s t prev) (hcur : LatchAt code (s + 1) t cur) :
    LatchAt code (s + 1) (t + 1)
      (if (!prev.busy && !prev.stalled) = true then f prev
       else if (!cur.busy && !cur.stalled) = true then g cur else cur) := by
  by_cases hlt : t < s
  · rw [if_neg (by simp [latch_disabled hprev hlt]), if_neg (by simp [latch_disabled hcur (by omega)])]
    exact ⟨fun _ => hcur.1 (by omega), fun h => absurd h (by omega)⟩
  · have hp := hprev.2 (by omega)
    rw [if_pos (holds_enabled hp)]
    refine ⟨fun h => absurd h (by omega), fun _ => ?_⟩
    have : t + 1 - (s + 1) = t - s := by omega
    rw [this]
    exact hf _ _ hp

/-- A latch that is overwritten by its predecessor and that its own stage function
does not touch. -/
theorem latch_step_last {code : Int → APEX_Instruction} {s t : Nat} {prev cur : CPU_Stage}
    (f : CPU_Stage → CPU_Stage)
    (hf : ∀ i l, Holds code i l → Holds code i (f l))
    (hprev : LatchAt code s t prev) (hcur : LatchAt code (s + 1) t cur) :
    LatchAt code (s + 1) (t + 1)
      (if (!prev.busy && !prev.stalled) = true then f prev else cur) := by
  by_cases hlt : t < s
  · rw [if_neg (by simp [latch_disabled hprev hlt])]
    exact ⟨fun _ => hcur.1 (by omega), fun h => absurd h (by omega)⟩
  · have hp := hprev.2 (by omega)
    rw [if_pos (holds_enabled hp)]
    refine ⟨fun h => absurd h (by omega), fun _ => ?_⟩
    have : t + 1 - (s + 1) = t - s := by omega
    rw [this]
    exact hf _ _ hp

/-- The initial context has the shape for `t = 0`. -/
theorem shape_init (code : Int → APEX_Instruction) (n : Nat) :
    Shape code n 0 (initial_context code n) where
  clock := rfl
  pc := rfl
  ins_completed := rfl
  code_memory := rfl
  code_memory_size := rfl
  regs_valid := rfl
  stage_F := ⟨0, ⟨"", 0, 0, 0, 0, 0⟩, rfl⟩
  fetched := fun h => absurd h (by decide)
  stage_DRF := ⟨fun _ => rfl, fun h => absurd h (by decide)⟩
  stage_EX1 := ⟨fun _ => rfl, fun h => absurd h (by decide)⟩
  stage_EX2 := ⟨fun _ => rfl, fun h => absurd h (by decide)⟩
  stage_MEM1 := ⟨fun _ => rfl, fun h => absurd h (by decide)⟩
  stage_MEM2 := ⟨fun _ => rfl, fun h => absurd h (by decide)⟩
  stage_WB := ⟨fun _ => rfl, fun h => absurd h (by decide)⟩

/-- The Fetch latch always passes the guard of `fetch`. -/
theorem shape_fetch_enabled {code : Int → APEX_Instruction} {n t : Nat} {cpu : APEX_CPU}
    (h : Shape code n t cpu) : (!cpu.stage_F.busy && !cpu.stage_F.stalled) = true := by
  obtain ⟨p, ins, hF⟩ := h.stage_F
  rw [hF]; rfl

/-- The Writeback latch passes the guard of `writeback` from the seventh pass on. -/
theorem shape_writeback_enabled {code : Int → APEX_Instruction} {n t : Nat} {cpu : APEX_CPU}
    (h : Shape code n t cpu) :
    (!cpu.stage_WB.busy && !cpu.stage_WB.stalled) = decide (6 ≤ t) := by
  by_cases h6 : 6 ≤ t
  · rw [holds_enabled (h.stage_WB.2 h6)]; simp [h6]
  · rw [latch_disabled h.stage_WB (by omega)]; simp [h6]

/-- The shape is kept by a pass of the loop body. -/
theorem shape_step {code : Int → APEX_Instruction} {n t : Nat} {cpu : APEX_CPU}
    (h : Shape code n t cpu) : Shape code n (t + 1) (cycle cpu) := by
  have hF := shape_fetch_enabled h
  obtain ⟨p, ins, hFeq⟩ := h.stage_F
  have hcopy : fetch_copy cpu.stage_F cpu.pc (cpu.code_memory (get_code_index cpu.pc)) =
      fetch_copy zero_stage (4000 + 4 * (t : Int)) (code t) := by
    rw [hFeq, h.pc, h.code_memory, get_code_index_pc]; rfl
  constructor
  · rw [(cycle_fields cpu).1, h.clock]; push_cast; rfl
  · rw [(cycle_fields cpu).2.1, if_pos hF, h.pc]; push_cast; ring
  · rw [(cycle_fields cpu).2.2.2.2.2.2.2.2.2.2.2.2.2.2, shape_writeback_enabled h, h.ins_completed]
    by_cases h6 : 6 ≤ t
    · simp only [h6, decide_True, if_true]; omega
    · simp only [h6, decide_False]
      have : t + 1 - 6 = 0 := by omega
      have : t - 6 = 0 := by omega
      simp [*]
  · rw [(cycle_fields cpu).2.2.2.2.2.2.2.2.2.2.2.1, h.code_memory]
  · rw [(cycle_fields cpu).2.2.2.2.2.2.2.2.2.2.2.2.1, h.code_memory_size]
  · rw [(cycle_fields cpu).2.2.2.1, h.regs_valid]
  · exact ⟨_, _, by rw [(cycle_fields cpu).2.2.2.2.1, if_pos hF, hcopy]⟩
  · intro _
    rw [(cycle_fields cpu).2.2.2.2.2.1, if_pos hF, hcopy]; rfl
  · rw [(cycle_fields cpu).2.2.2.2.2.1, if_pos hF, hcopy]
    exact ⟨fun hlt => absurd hlt (by omega), fun _ => holds_of_fetch code t⟩
  · rw [(cycle_fields cpu).2.2.2.2.2.2.1]
    exact latch_step _ _ (fun _ _ hl => holds_after_decode hl _) h.stage_DRF h.stage_EX1
  · rw [(cycle_fields cpu).2.2.2.2.2.2.2.1]
    exact latch_step_last _ (fun _ _ hl => holds_after_execute1 hl) h.stage_EX1 h.stage_EX2
  · rw [(cycle_fields cpu).2.2.2.2.2.2.2.2.1]
    exact latch_step (fun l => l) _ (fun _ _ hl => hl) h.stage_EX2 h.stage_MEM1
  · rw [(cycle_fields cpu).2.2.2.2.2.2.2.2.2.1]
    exact latch_step_last _ (fun _ _ hl => holds_after_memory1 hl _) h.stage_MEM1 h.stage_MEM2
  · rw [(cycle_fields cpu).2.2.2.2.2.2.2.2.2.2.1]
    exact latch_step_last (fun l => l) (fun _ _ hl => hl) h.stage_MEM2 h.stage_WB

/-- The context after `t` passes from the initial context has the shape for `t`. -/
theorem shape_after_cycles (code : Int → APEX_Instruction) (n t : Nat) :
    Shape code n t (cycles t (initial_context code n)) := by
  induction t with
  | zero => exact shape_init code n
  | succ k ih => exact shape_step ih

/-! ### The loop of `APEX_cpu_run` -/

/-- The loop leaves when the exit test holds. -/
theorem APEX_cpu_run_exit (cpu : APEX_CPU) (fuel : Nat)
    (h : cpu.ins_completed = cpu.code_memory_size) : APEX_cpu_run fuel cpu = some cpu := by
  unfold APEX_cpu_run; rw [if_pos h]

/-- The loop makes a pass when the exit test fails. -/
theorem APEX_cpu_run_pass (cpu : APEX_CPU) (fuel : Nat)
    (h : cpu.ins_completed ≠ cpu.code_memory_size) :
    APEX_cpu_run (fuel + 1) cpu = APEX_cpu_run fuel (cycle cpu) := by
  rw [APEX_cpu_run, if_neg h]

/-- With no pass allowed the loop does not return unless the exit test holds. -/
theorem APEX_cpu_run_out (cpu : APEX_CPU)
    (h : cpu.ins_completed ≠ cpu.code_memory_size) : APEX_cpu_run 0 cpu = none := by
  rw [APEX_cpu_run, if_neg h]

/-- The loop leaves at the first pass count at which the exit test holds. -/
theorem APEX_cpu_run_eq_cycles (k : Nat) : ∀ (fuel : Nat) (cpu : APEX_CPU), k ≤ fuel →
    (∀ j, j < k → (cycles j cpu).ins_completed ≠ (cycles j cpu).code_memory_size) →
    (cycles k cpu).ins_completed = (cycles k cpu).code_memory_size →
    APEX_cpu_run fuel cpu = some (cycles k cpu) := by
  induction k with
  | zero =>
    intro fuel cpu _ _ hk
    exact APEX_cpu_run_exit cpu fuel hk
  | succ k ih =>
    intro fuel cpu hle hlt hk
    obtain ⟨f, rfl⟩ : ∃ f, fuel = f + 1 := ⟨fuel - 1, by omega⟩
    rw [APEX_cpu_run_pass cpu f (hlt 0 (by omega)), cycles_succ_cycle]
    apply ih f (cycle cpu) (by omega)
    · intro j hj
      rw [← cycles_succ_cycle]
      exact hlt (j + 1) (by omega)
    · rw [← cycles_succ_cycle]
      exact hk

/-- The loop does not leave before the exit test holds. -/
theorem APEX_cpu_run_eq_none (fuel : Nat) : ∀ (cpu : APEX_CPU),
    (∀ j, j ≤ fuel → (cycles j cpu).ins_completed ≠ (cycles j cpu).code_memory_size) →
    APEX_cpu_run fuel cpu = none := by
  induction fuel with
  | zero =>
    intro cpu h
    exact APEX_cpu_run_out cpu (h 0 (by omega))
  | succ f ih =>
    intro cpu h
    rw [APEX_cpu_run_pass cpu f (h 0 (by omega))]
    apply ih
    intro j hj
    rw [← cycles_succ_cycle]
    exact h (j + 1) (by omega)

/-- In the pass number `t + 1` of a run from the initial context `fetch` reads the
code-memory index `t`. -/
theorem fetch_access_of_shape {code : Int → APEX_Instruction} {n t : Nat} {cpu : APEX_CPU}
    (h : Shape code n t cpu) : fetch_access cpu = some (t : Int) := by
  unfold fetch_access
  simp only [decode_fields, execute1_fields, execute2_fields, memory1_fields, memory2_fields,
    writeback_fields]
  rw [if_pos (shape_fetch_enabled h), h.pc, get_code_index_pc]

/-- During a run from the initial context on a program of `n ≥ 1`
instructions, `fetch` reads the code-memory indices `0, 1, .., n + 5`, one in
each pass. -/
theorem fetch_trace_cycles (code : Int → APEX_Instruction) (n : Nat) (hn : 1 ≤ n) (k : Nat) :
    ∀ t fuel : Nat, t + k = n + 6 → k ≤ fuel →
      fetch_trace fuel (cycles t (initial_context code n)) =
        (List.range' t k).map (fun i : Nat => (i : Int)) := by
  induction k with
  | zero =>
    intro t fuel ht _
    have hs := shape_after_cycles code n t
    have hexit : (cycles t (initial_context code n)).ins_completed =
        (cycles t (initial_context code n)).code_memory_size := by
      rw [hs.ins_completed, hs.code_memory_size]
      have : t - 6 = n := by omega
      rw [this]
    unfold fetch_trace
    rw [if_pos hexit]
    rfl
  | succ k ih =>
    intro t fuel ht hfuel
    have hs := shape_after_cycles code n t
    have hne : (cycles t (initial_context code n)).ins_completed ≠
        (cycles t (initial_context code n)).code_memory_size := by
      rw [hs.ins_completed, hs.code_memory_size]
      have : t - 6 < n := by omega
      omega
    obtain ⟨f, rfl⟩ : ∃ f, fuel = f + 1 := ⟨fuel - 1, by omega⟩
    rw [fetch_trace, if_neg hne, fetch_access_of_shape hs]
    have hnext : cycle (cycles t (initial_context code n)) =
        cycles (t + 1) (initial_context code n) := rfl
    rw [hnext, ih (t + 1) f (by omega) (by omega), List.range'_succ]
    rfl

/-- The code-memory indices read during a whole run from the initial context. -/
theorem fetch_trace_initial_context (code : Int → APEX_Instruction) (n : Nat) (hn : 1 ≤ n)
    (fuel : Nat) (hfuel : n + 6 ≤ fuel) :
    fetch_trace fuel (initial_context code n) =
      (List.range (n + 6)).map (fun i : Nat => (i : Int)) := by
  rw [List.range_eq_range']
  exact fetch_trace_cycles code n hn (n + 6) 0 fuel (by omega) hfuel

/-! ### Runs on code memories holding the same program -/

/-- The guard of the stage number `s` passes exactly from the pass `s + 1` on. -/
theorem latch_enabled_eq {code : Int → APEX_Instruction} {s t : Nat} {l : CPU_Stage}
    (h : LatchAt code s t l) : (!l.busy && !l.stalled) = decide (s ≤ t) := by
  by_cases hs : s ≤ t
  · rw [holds_enabled (h.2 hs)]; simp [hs]
  · rw [latch_disabled h (by omega)]; simp [hs]

/-- Agreement of two runs is kept by a pass of the loop body. -/
theorem agree_step {code1 code2 : Int → APEX_Instruction} {n t : Nat} {c1 c2 : APEX_CPU}
    (hcode : ∀ i : Nat, i < n → code1 i = code2 i)
    (h1 : Shape code1 n t c1) (h2 : Shape code2 n t c2) (a : Agree n t c1 c2) :
    Agree n (t + 1) (cycle c1) (cycle c2) := by
  have hregs : t + 1 ≤ n + 6 → (cycle c1).regs = (cycle c2).regs := by
    intro ht
    rw [(cycle_fields c1).2.2.1, (cycle_fields c2).2.2.1, a.regs (by omega),
      a.stage_WB (by omega)]
  have hmem : t + 1 ≤ n + 4 → memory1_store c1.data_memory c1.stage_MEM1 =
      memory1_store c2.data_memory c2.stage_MEM1 := by
    intro ht
    rw [a.data_memory (by omega), a.stage_MEM1 (by omega)]
  constructor
  · exact hregs
  · intro ht
    rw [(cycle_fields c1).2.2.2.2.2.2.2.2.2.2.2.2.2.1,
      (cycle_fields c2).2.2.2.2.2.2.2.2.2.2.2.2.2.1, a.data_memory (by omega),
      a.stage_MEM1 (by omega)]
  · intro ht
    rw [(shape_step h1).fetched (by omega), (shape_step h2).fetched (by omega)]
    have : t + 1 - 1 = t := by omega
    rw [this, hcode t (by omega)]
  · intro ht
    rw [(cycle_fields c1).2.2.2.2.2.2.1, (cycle_fields c2).2.2.2.2.2.2.1, hregs (by omega),
      a.stage_DRF (by omega), a.stage_EX1 (by omega)]
  · intro ht
    rw [(cycle_fields c1).2.2.2.2.2.2.2.1, (cycle_fields c2).2.2.2.2.2.2.2.1,
      a.stage_EX1 (by omega), a.stage_EX2 (by omega)]
  · intro ht
    rw [(cycle_fields c1).2.2.2.2.2.2.2.2.1, (cycle_fields c2).2.2.2.2.2.2.2.2.1,
      latch_enabled_eq h1.stage_MEM1, latch_enabled_eq h2.stage_MEM1, latch_enabled_eq h1.stage_EX2,
      latch_enabled_eq h2.stage_EX2, a.stage_EX2 (by omega)]
    by_cases h3 : 3 ≤ t
    · simp [h3]
    · have h4 : ¬ 4 ≤ t := by omega
      simp only [h3, h4, decide_False, Bool.false_eq_true, if_false]
      rw [(h1.stage_MEM1).1 (by omega), (h2.stage_MEM1).1 (by omega)]
  · intro ht
    rw [(cycle_fields c1).2.2.2.2.2.2.2.2.2.1, (cycle_fields c2).2.2.2.2.2.2.2.2.2.1,
      hmem (by omega), a.stage_MEM1 (by omega), a.stage_MEM2 (by omega)]
  · intro ht
    rw [(cycle_fields c1).2.2.2.2.2.2.2.2.2.2.1, (cycle_fields c2).2.2.2.2.2.2.2.2.2.2.1,
      a.stage_MEM2 (by omega), a.stage_WB (by omega)]

/-- Two initial contexts agree. -/
theorem agree_init (code1 code2 : Int → APEX_Instruction) (n : Nat) :
    Agree n 0 (initial_context code1 n) (initial_context code2 n) :=
  ⟨fun _ => rfl, fun _ => rfl, fun _ => rfl, fun _ => rfl, fun _ => rfl, fun _ => rfl,
    fun _ => rfl, fun _ => rfl⟩

/-- Two runs on code memories holding the same `n` instructions agree after every
number of passes. -/
theorem agree_after_cycles {code1 code2 : Int → APEX_Instruction} {n : Nat}
    (hcode : ∀ i : Nat, i < n → code1 i = code2 i) (t : Nat) :
    Agree n t (cycles t (initial_context code1 n)) (cycles t (initial_context code2 n)) := by
  induction t with
  | zero => exact agree_init code1 code2 n
  | succ k ih => exact agree_step hcode (shape_after_cycles code1 n k) (shape_after_cycles code2 n k) ih

/-- The code memories built from one program hold the same instructions at the
indices of the program. -/
theorem code_of_agree (prog : List APEX_Instruction) (rest1 rest2 : Int → APEX_Instruction)
    (i : Nat) (hi : i < prog.length) : code_of prog rest1 i = code_of prog rest2 i := by
  unfold code_of
  have h0 : ¬ ((i : Int) < 0) := by omega
  rw [if_neg h0, if_neg h0, Int.toNat_ofNat, List.getElem?_eq_getElem hi]

/-- A run from the initial context on a program of `n ≥ 1` instructions makes
`n + 6` passes. -/
theorem run_initial_context (code : Int → APEX_Instruction) (n : Nat) (hn : 1 ≤ n) :
    (∀ fuel, n + 6 ≤ fuel → APEX_cpu_run fuel (initial_context code n) =
      some (cycles (n + 6) (initial_context code n))) ∧
    (∀ fuel, fuel < n + 6 → APEX_cpu_run fuel (initial_context code n) = none) ∧
    (∀ t, t < n + 6 → (cycles t (initial_context code n)).ins_completed < n) := by
  have hs := shape_after_cycles code n
  have hlt : ∀ t, t < n + 6 → (cycles t (initial_context code n)).ins_completed < n := by
    intro t ht
    rw [(hs t).ins_completed]
    omega
  have hne : ∀ t, t < n + 6 → (cycles t (initial_context code n)).ins_completed ≠
      (cycles t (initial_context code n)).code_memory_size := by
    intro t ht
    rw [(hs t).code_memory_size]
    exact ne_of_lt (hlt t ht)
  refine ⟨?_, ?_, hlt⟩
  · intro fuel hfuel
    apply APEX_cpu_run_eq_cycles (n + 6) fuel _ hfuel hne
    rw [(hs (n + 6)).ins_completed, (hs (n + 6)).code_memory_size]; simp
  · intro fuel hfuel
    apply APEX_cpu_run_eq_none
    intro j hj
    exact hne j (by omega)

/-- The register file a run on the program `prog` ends with does not depend on
what lies behind the program in the code memory. -/
theorem run_code_of (prog : List APEX_Instruction) (rest : Int → APEX_Instruction)
    (fuel : Nat) (hn : 1 ≤ prog.length) (hfuel : prog.length + 6 ≤ fuel) :
    ∃ cpu, APEX_cpu_run fuel (initial_context (code_of prog rest) prog.length) = some cpu ∧
      cpu.regs = (cycles (prog.length + 6)
        (initial_context (code_of prog (fun _ => no_instruction)) prog.length)).regs :=
  ⟨_, (run_initial_context _ _ hn).1 fuel hfuel,
    (agree_after_cycles (code_of_agree prog rest _) _).regs (le_refl _)⟩

/-- The contexts of two runs on the program `prog` agree, whatever lies behind
the program in the code memory. -/
theorem cycles_code_of (prog : List APEX_Instruction) (rest : Int → APEX_Instruction)
    (t : Nat) :
    Agree prog.length t (cycles t (initial_context (code_of prog rest) prog.length))
      (cycles t (initial_context (code_of prog (fun _ => no_instruction)) prog.length)) :=
  agree_after_cycles (code_of_agree prog rest _) t

/-! ### The pipeline and the sequential interpreter -/

/-- For the two-source arithmetic and logic instructions `decode` reads both source
registers. -/
theorem decode_reads_alu (regs : Int → Int) (l : CPU_Stage)
    (h : l.opcode ∈ ["ADD", "SUB", "MUL", "AND", "OR", "EXOR"]) :
    (decode_reads regs l).rs1_value = regs l.rs1 ∧
    (decode_reads regs l).rs2_value = regs l.rs2 := by
  simp only [List.mem_cons, List.mem_singleton, List.not_mem_nil, or_false] at h
  rcases h with h | h | h | h | h | h <;> simp [decode_reads, h]

/-- For a `mov_alu` instruction whose operand values are those of the register file
`regs`, `execute1` computes the value of the sequential interpreter. -/
theorem execute1_compute_result (l : CPU_Stage) (ins : APEX_Instruction) (regs : Int → Int)
    (hop : l.opcode = ins.opcode) (himm : l.imm = ins.imm)
    (hcls : ins.opcode ∈ ["MOVC", "ADD", "SUB", "MUL", "AND", "OR", "EXOR"])
    (hv : ins.opcode ≠ "MOVC" →
      l.rs1_value = regs ins.rs1 ∧ l.rs2_value = regs ins.rs2) :
    sequential_result ins regs = some (execute1_compute l).buffer := by
  simp only [List.mem_cons, List.mem_singleton, List.not_mem_nil, or_false] at hcls
  rcases hcls with h | h | h | h | h | h | h
  · simp [sequential_result, execute1_compute, hop, h, himm]
  all_goals
    obtain ⟨h1, h2⟩ := hv (by simp [h])
    simp [sequential_result, execute1_compute, hop, h, h1, h2, land_comm (regs ins.rs2),
      lor_comm (regs ins.rs2), xor_comm (regs ins.rs2)]

/-- The loads of `memory1` leave a latch holding a `mov_alu` instruction alone. -/
theorem memory1_load_mov_alu (dm : Int → Int) (l : CPU_Stage)
    (h : l.opcode ∈ ["MOVC", "ADD", "SUB", "MUL", "AND", "OR", "EXOR"]) :
    memory1_load dm l = l := by
  simp only [List.mem_cons, List.mem_singleton, List.not_mem_nil, or_false] at h
  rcases h with h | h | h | h | h | h | h <;> simp [memory1_load, h]

/-- For a `mov_alu` instruction `writeback` assigns `regs[rd] = buffer`. -/
theorem writeback_regs_mov_alu (regs : Int → Int) (l : CPU_Stage)
    (h : l.opcode ∈ ["MOVC", "ADD", "SUB", "MUL", "AND", "OR", "EXOR"]) :
    writeback_regs regs l = Function.update regs l.rd l.buffer := by
  apply writeback_regs_writes
  simp only [List.mem_cons, List.mem_singleton, List.not_mem_nil, or_false] at h ⊢
  rcases h with h | h | h | h | h | h | h <;> simp [h]

/-- An instruction of the sequential interpreter touches no register but `rd`. -/
theorem sequential_step_of_ne (ins : APEX_Instruction) (regs : Int → Int) (r : Int)
    (h : r ≠ ins.rd) : sequential_step ins regs r = regs r := by
  unfold sequential_step
  cases sequential_result ins regs with
  | none => rfl
  | some v => exact Function.update_noteq h _ _

/-- A register keeps its value over a stretch of the program that does not
write it. -/
theorem sequential_run_of_not_written (code : Int → APEX_Instruction) (r : Int) (a b : Nat)
    (hab : a ≤ b) (h : ∀ j : Nat, a ≤ j → j < b → (code j).rd ≠ r) :
    sequential_run code b r = sequential_run code a r := by
  induction b with
  | zero =>
    have : a = 0 := by omega
    rw [this]
  | succ k ih =>
    by_cases hk : a = k + 1
    · rw [hk]
    · show sequential_step (code k) (sequential_run code k) r = _
      rw [sequential_step_of_ne _ _ _ (Ne.symm (h k (by omega) (by omega)))]
      exact ih (by omega) (fun j h1 h2 => h j h1 (by omega))

/-- The initial context has the values for `t = 0`. -/
theorem values_init (code : Int → APEX_Instruction) (n : Nat) :
    Values code n 0 (initial_context code n) where
  regs := fun _ => rfl
  stage_EX1 := fun h => absurd h (by decide)
  stage_EX2 := fun h => absurd h (by decide)
  stage_MEM1 := fun h => absurd h (by decide)
  stage_MEM2 := fun h => absurd h (by decide)
  stage_WB := fun h => absurd h (by decide)

/-- The values in the latches follow the sequential interpreter over a pass
of the loop body, when no instruction reads a register that one of the four
instructions before it writes. -/
theorem values_step {code : Int → APEX_Instruction} {n t : Nat} {cpu : APEX_CPU}
    (hclass : ∀ i : Nat, i < n → mov_alu (code i)) (hsep : separated code n 4)
    (hs : Shape code n t cpu) (hv : Values code n t cpu) :
    Values code n (t + 1) (cycle cpu) := by
  have hregs : t + 1 ≤ n + 6 → (cycle cpu).regs = sequential_run code (t + 1 - 6) := by
    intro ht
    rw [(cycle_fields cpu).2.2.1, latch_enabled_eq hs.stage_WB]
    by_cases h6 : 6 ≤ t
    · have hH := hs.stage_WB.2 h6
      have hc := (hclass (t - 6) (by omega)).1
      have e : t + 1 - 6 = (t - 6) + 1 := by omega
      rw [e]
      show _ = sequential_step (code ((t - 6 : Nat) : Int)) (sequential_run code (t - 6))
      unfold sequential_step
      rw [hv.stage_WB h6 (by omega)]
      simp only [h6, decide_True, if_true]
      rw [writeback_regs_mov_alu _ _ (by rw [hH.2.1]; exact hc), hv.regs (by omega), hH.2.2.1]
    · have e : t + 1 - 6 = t - 6 := by omega
      simp only [h6, decide_False, Bool.false_eq_true, if_false]
      rw [e]
      exact hv.regs (by omega)
  constructor
  · exact hregs
  · intro h2 hn hmov
    have e : t + 1 - 2 = t - 1 := by omega
    rw [e] at hn hmov ⊢
    have h1 : 1 ≤ t := by omega
    have hH := hs.stage_DRF.2 h1
    have hc := (hclass (t - 1) hn).1
    have halu : cpu.stage_DRF.opcode ∈ ["ADD", "SUB", "MUL", "AND", "OR", "EXOR"] := by
      rw [hH.2.1]
      simp only [List.mem_cons, List.mem_singleton, List.not_mem_nil, or_false] at hc ⊢
      rcases hc with h | h | h | h | h | h | h
      · exact absurd h hmov
      all_goals simp [h]
    rw [(cycle_fields cpu).2.2.2.2.2.2.1, latch_enabled_eq hs.stage_DRF]
    simp only [h1, decide_True, if_true]
    rw [(decode_reads_alu _ _ halu).1, (decode_reads_alu _ _ halu).2, hregs (by omega),
      hH.2.2.2.1, hH.2.2.2.2.1]
    constructor
    · apply (sequential_run_of_not_written code _ _ _ (by omega) _).symm
      intro j hj1 hj2 hrd
      have := hsep (t - 1) hn j hj2 ⟨hmov, Or.inl hrd.symm⟩
      omega
    · apply (sequential_run_of_not_written code _ _ _ (by omega) _).symm
      intro j hj1 hj2 hrd
      have := hsep (t - 1) hn j hj2 ⟨hmov, Or.inr hrd.symm⟩
      omega
  · intro h3 hn
    have e : t + 1 - 3 = t - 2 := by omega
    rw [e] at hn ⊢
    have h2 : 2 ≤ t := by omega
    have hH := hs.stage_EX1.2 h2
    rw [(cycle_fields cpu).2.2.2.2.2.2.2.1, latch_enabled_eq hs.stage_EX1]
    simp only [h2, decide_True, if_true]
    exact execute1_compute_result _ _ _ hH.2.1 hH.2.2.2.2.2.2.1 (hclass (t - 2) hn).1
      (hv.stage_EX1 h2 hn)
  · intro h4 hn
    have e : t + 1 - 4 = t - 3 := by omega
    rw [e] at hn ⊢
    have h3 : 3 ≤ t := by omega
    rw [(cycle_fields cpu).2.2.2.2.2.2.2.2.1, latch_enabled_eq hs.stage_EX2]
    simp only [h3, decide_True, if_true]
    exact hv.stage_EX2 h3 hn
  · intro h5 hn
    have e : t + 1 - 5 = t - 4 := by omega
    rw [e] at hn ⊢
    have h4 : 4 ≤ t := by omega
    have hH := hs.stage_MEM1.2 h4
    rw [(cycle_fields cpu).2.2.2.2.2.2.2.2.2.1, latch_enabled_eq hs.stage_MEM1]
    simp only [h4, decide_True, if_true]
    rw [memory1_load_mov_alu _ _ (by rw [hH.2.1]; exact (hclass (t - 4) hn).1)]
    exact hv.stage_MEM1 h4 hn
  · intro h6 hn
    have e : t + 1 - 6 = t - 5 := by omega
    rw [e] at hn ⊢
    have h5 : 5 ≤ t := by omega
    rw [(cycle_fields cpu).2.2.2.2.2.2.2.2.2.2.1, latch_enabled_eq hs.stage_MEM2]
    simp only [h5, decide_True, if_true]
    exact hv.stage_MEM2 h5 hn

/-- The latches after `t` passes from the initial context carry the values of the
sequential interpreter. -/
theorem values_after_cycles {code : Int → APEX_Instruction} {n : Nat}
    (hclass : ∀ i : Nat, i < n → mov_alu (code i)) (hsep : separated code n 4) (t : Nat) :
    Values code n t (cycles t (initial_context code n)) := by
  induction t with
  | zero => exact values_init code n
  | succ k ih => exact values_step hclass hsep (shape_after_cycles code n k) ih

/-- Instructions separated by at least `d` others are separated by at least `e ≤ d`. -/
theorem separated_mono {code : Int → APEX_Instruction} {n d e : Nat} (hde : e ≤ d)
    (h : separated code n d) : separated code n e := by
  intro i hi j hj hr
  have := h i hi j hj hr
  omega

/-- The register file at the end of a run on a program of `mov_alu`
instructions in which no instruction reads a register that one of the four
instructions before it writes is that of the sequential interpreter. -/
theorem run_mov_alu (code : Int → APEX_Instruction) (n : Nat)
    (hclass : ∀ i : Nat, i < n → mov_alu (code i)) (hsep : separated code n 4)
    (fuel : Nat) (hfuel : n + 6 ≤ fuel) :
    ∃ cpu, APEX_cpu_run fuel (initial_context code n) = some cpu ∧
      cpu.regs = sequential_run code n := by
  by_cases hn : 1 ≤ n
  · refine ⟨_, (run_initial_context code n hn).1 fuel hfuel, ?_⟩
    rw [(values_after_cycles hclass hsep (n + 6)).regs (le_refl _)]
    simp
  · have h0 : n = 0 := by omega
    subst h0
    exact ⟨_, APEX_cpu_run_exit _ _ rfl, rfl⟩

/-! ### The latches by their number -/

/-- The shape of the latch number `s` after `t` passes from the initial
context. -/
theorem latch_at_stage (code : Int → APEX_Instruction) (n t s : Nat) (hs1 : 1 ≤ s)
    (hs : s ≤ 6) : LatchAt code s t (stage_at (cycles t (initial_context code n)) s) := by
  have h := shape_after_cycles code n t
  interval_cases s
  · exact h.stage_DRF
  · exact h.stage_EX1
  · exact h.stage_EX2
  · exact h.stage_MEM1
  · exact h.stage_MEM2
  · exact h.stage_WB

/-- The Fetch latch is never busy nor stalled in a run from the initial
context. -/
theorem fetch_latch_flags (code : Int → APEX_Instruction) (n t : Nat) :
    (cycles t (initial_context code n)).stage_F.busy = false ∧
    (cycles t (initial_context code n)).stage_F.stalled = false := by
  obtain ⟨p, ins, hF⟩ := (shape_after_cycles code n t).stage_F
  rw [hF]
  exact ⟨rfl, rfl⟩

/-- The latch number `s` has `busy` set after `t` passes exactly when
`t < s`. -/
theorem busy_iff (code : Int → APEX_Instruction) (n t s : Nat) (hs : s ≤ 6) :
    (stage_at (cycles t (initial_context code n)) s).busy = true ↔ t < s := by
  by_cases h0 : s = 0
  · subst h0
    show (cycles t (initial_context code n)).stage_F.busy = true ↔ t < 0
    rw [(fetch_latch_flags code n t).1]
    simp
  · have h := latch_at_stage code n t s (by omega) hs
    by_cases hlt : t < s
    · rw [h.1 hlt]
      simp [hlt]
    · rw [(h.2 (by omega)).2.2.2.2.2.2.2.1]
      simp [hlt]

/-- The guard of the stage function number `s` holds after `t` passes exactly
when `s ≤ t`. -/
theorem guard_iff (code : Int → APEX_Instruction) (n t s : Nat) (hs : s ≤ 6) :
    (!(stage_at (cycles t (initial_context code n)) s).busy &&
      !(stage_at (cycles t (initial_context code n)) s).stalled) = true ↔ s ≤ t := by
  by_cases h0 : s = 0
  · subst h0
    show (!(cycles t (initial_context code n)).stage_F.busy &&
      !(cycles t (initial_context code n)).stage_F.stalled) = true ↔ 0 ≤ t
    rw [(fetch_latch_flags code n t).1, (fetch_latch_flags code n t).2]
    simp
  · have h := latch_at_stage code n t s (by omega) hs
    rw [latch_enabled_eq h]
    simp

/-! ### The flag `stalled` -/

/-- The field copies of `fetch` keep the flags of the latch. -/
theorem fetch_copy_flags (l : CPU_Stage) (pc : Int) (ins : APEX_Instruction) :
    (fetch_copy l pc ins).busy = l.busy ∧ (fetch_copy l pc ins).stalled = l.stalled :=
  ⟨rfl, rfl⟩

/-- No stage function sets `stalled` in a latch. -/
theorem unstalled_stage_function (s : Nat) (cpu : APEX_CPU) (h : Unstalled cpu) :
    Unstalled (stage_function s cpu) := by
  obtain ⟨hF, hD, hE1, hE2, hM1, hM2, hW⟩ := h
  unfold stage_function
  split
  · simp only [Unstalled, fetch_fields]
    refine ⟨?_, ?_, hE1, hE2, hM1, hM2, hW⟩ <;> split <;>
      simp only [fetch_copy_flags, hF, hD]
  · simp only [Unstalled, decode_fields]
    refine ⟨hF, ?_, ?_, hE2, hM1, hM2, hW⟩ <;> split <;>
      simp only [decode_reads_frame, hD, hE1]
  · simp only [Unstalled, execute1_fields]
    refine ⟨hF, hD, ?_, ?_, hM1, hM2, hW⟩ <;> split <;>
      simp only [execute1_compute_frame, hE1, hE2]
  · simp only [Unstalled, execute2_fields]
    refine ⟨hF, hD, hE1, hE2, ?_, hM2, hW⟩
    split <;> simp only [hE2, hM1]
  · simp only [Unstalled, memory1_fields]
    refine ⟨hF, hD, hE1, hE2, ?_, ?_, hW⟩ <;> split <;>
      simp only [memory1_load_frame, hM1, hM2]
  · simp only [Unstalled, memory2_fields]
    refine ⟨hF, hD, hE1, hE2, hM1, hM2, ?_⟩
    split <;> simp only [hM2, hW]
  · simp only [Unstalled, writeback_fields]
    exact ⟨hF, hD, hE1, hE2, hM1, hM2, hW⟩

/-- A pass of the loop body sets `stalled` in no latch. -/
theorem unstalled_cycle (cpu : APEX_CPU) (h : Unstalled cpu) : Unstalled (cycle cpu) := by
  have h1 := unstalled_stage_function 6 cpu h
  have h2 := unstalled_stage_function 5 _ h1
  have h3 := unstalled_stage_function 4 _ h2
  have h4 := unstalled_stage_function 3 _ h3
  have h5 := unstalled_stage_function 2 _ h4
  have h6 := unstalled_stage_function 1 _ h5
  have h7 := unstalled_stage_function 0 _ h6
  exact h7

/-- No sequence of steps of a driver sets `stalled` in a latch. -/
theorem unstalled_driver_steps (steps : List Driver_Step) :
    ∀ cpu : APEX_CPU, Unstalled cpu → Unstalled (driver_steps steps cpu) := by
  induction steps with
  | nil => intro cpu h; exact h
  | cons st rest ih =>
    intro cpu h
    show Unstalled (driver_steps rest (driver_step st cpu))
    apply ih
    cases st with
    | call s => exact unstalled_stage_function s cpu h
    | pass => exact unstalled_cycle cpu h

/-- The initial context has `stalled` set in no latch. -/
theorem unstalled_initial_context (code : Int → APEX_Instruction) (n : Nat) :
    Unstalled (initial_context code n) :=
  ⟨rfl, rfl, rfl, rfl, rfl, rfl, rfl⟩

/-- The seven latches by their number have `stalled` clear when the context
has it set in no latch. -/
theorem unstalled_stage_at (cpu : APEX_CPU) (h : Unstalled cpu) (s : Nat) :
    (stage_at cpu s).stalled = false := by
  obtain ⟨hF, hD, hE1, hE2, hM1, hM2, hW⟩ := h
  unfold stage_at
  split <;> assumption

/-- The passes of the loop body are steps of a driver. -/
theorem cycles_eq_driver_steps (t : Nat) (cpu : APEX_CPU) :
    cycles t cpu = driver_steps (List.replicate t Driver_Step.pass) cpu := by
  induction t generalizing cpu with
  | zero => rfl
  | succ k ih =>
    rw [cycles_succ_cycle, ih]
    rfl

/-! ### The guards of the stage functions -/

/-- The guard of a stage function fails when `busy` or `stalled` is set. -/
theorem guard_of_flag (l : CPU_Stage) (h : l.busy = true ∨ l.stalled = true) :
    (!l.busy && !l.stalled) = false := by
  rcases h with h | h <;> simp [h]

/-- The guard of a stage function holds when neither `busy` nor `stalled` is
set. -/
theorem guard_of_no_flag (l : CPU_Stage) (h : ¬ (l.busy = true ∨ l.stalled = true)) :
    (!l.busy && !l.stalled) = true := by
  cases hb : l.busy <;> cases hs : l.stalled <;> simp_all

/-- A stage function whose guard fails returns the context as it is. -/
theorem stage_function_of_flag (s : Nat) (cpu : APEX_CPU)
    (h : (stage_at cpu s).busy = true ∨ (stage_at cpu s).stalled = true) :
    stage_function s cpu = cpu := by
  have hg := guard_of_flag _ h
  rcases s with _ | _ | _ | _ | _ | _ | s
  · simp only [stage_at] at hg
    simp only [stage_function, fetch, hg, Bool.false_eq_true, if_false]
  · simp only [stage_at] at hg
    simp only [stage_function, decode, hg, Bool.false_eq_true, if_false]
  · simp only [stage_at] at hg
    simp only [stage_function, execute1, hg, Bool.false_eq_true, if_false]
  · simp only [stage_at] at hg
    simp only [stage_function, execute2, hg, Bool.false_eq_true, if_false]
  · simp only [stage_at] at hg
    simp only [stage_function, memory1, hg, Bool.false_eq_true, if_false]
  · simp only [stage_at] at hg
    simp only [stage_function, memory2, hg, Bool.false_eq_true, if_false]
  · simp only [stage_at] at hg
    simp only [stage_function, writeback, hg, Bool.false_eq_true, if_false]

/-- A stage function whose guard holds changes the context for one of the
opcodes `ADD` and `SUB` in its latch at least. -/
theorem stage_function_changes (s : Nat) (cpu : APEX_CPU)
    (h : ¬ ((stage_at cpu s).busy = true ∨ (stage_at cpu s).stalled = true)) :
    stage_function s (with_opcode cpu s "ADD") ≠ with_opcode cpu s "ADD" ∨
    stage_function s (with_opcode cpu s "SUB") ≠ with_opcode cpu s "SUB" := by
  have hg := guard_of_no_flag _ h
  by_contra hcon
  simp only [not_or, not_not] at hcon
  obtain ⟨ha, hs⟩ := hcon
  rcases s with _ | _ | _ | _ | _ | _ | s
  · simp only [stage_at] at hg
    have h1 := congrArg APEX_CPU.pc ha
    simp only [stage_function, with_opcode, fetch_fields, hg, if_true] at h1
    omega
  · simp only [stage_at] at hg
    have h1 := congrArg (fun c => c.stage_EX1.opcode) ha
    have h2 := congrArg (fun c => c.stage_EX1.opcode) hs
    simp only [stage_function, with_opcode, decode_fields, hg, if_true,
      decode_reads_frame] at h1 h2
    exact absurd (h1.trans h2.symm) (by decide)
  · simp only [stage_at] at hg
    have h1 := congrArg (fun c => c.stage_EX2.opcode) ha
    have h2 := congrArg (fun c => c.stage_EX2.opcode) hs
    simp only [stage_function, with_opcode, execute1_fields, hg, if_true,
      execute1_compute_frame] at h1 h2
    exact absurd (h1.trans h2.symm) (by decide)
  · simp only [stage_at] at hg
    have h1 := congrArg (fun c => c.stage_MEM1.opcode) ha
    have h2 := congrArg (fun c => c.stage_MEM1.opcode) hs
    simp only [stage_function, with_opcode, execute2_fields, hg, if_true] at h1 h2
    exact absurd (h1.trans h2.symm) (by decide)
  · simp only [stage_at] at hg
    have h1 := congrArg (fun c => c.stage_MEM2.opcode) ha
    have h2 := congrArg (fun c => c.stage_MEM2.opcode) hs
    simp only [stage_function, with_opcode, memory1_fields, hg, if_true,
      memory1_load_frame] at h1 h2
    exact absurd (h1.trans h2.symm) (by decide)
  · simp only [stage_at] at hg
    have h1 := congrArg (fun c => c.stage_WB.opcode) ha
    have h2 := congrArg (fun c => c.stage_WB.opcode) hs
    simp only [stage_function, with_opcode, memory2_fields, hg, if_true] at h1 h2
    exact absurd (h1.trans h2.symm) (by decide)
  · simp only [stage_at] at hg
    have h1 := congrArg APEX_CPU.ins_completed ha
    simp only [stage_function, with_opcode, writeback_fields, hg, if_true] at h1
    omega

/-! ### The window between writeback and decode -/

/-- The opcodes for which `decode` reads the first source register. -/
theorem decode_reads_rs1 (regs : Int → Int) (l : CPU_Stage)
    (h : l.opcode ∈ ["STORE", "LOAD", "LDR", "STR", "ADD", "ADDL", "SUB", "SUBL", "MUL", "AND",
      "OR", "EXOR"]) :
    (decode_reads regs l).rs1_value = regs l.rs1 := by
  simp only [List.mem_cons, List.mem_singleton, List.not_mem_nil, or_false] at h
  rcases h with h | h | h | h | h | h | h | h | h | h | h | h <;> simp [decode_reads, h]

/-- The opcodes for which `decode` reads the second source register. -/
theorem decode_reads_rs2 (regs : Int → Int) (l : CPU_Stage)
    (h : l.opcode ∈ ["STORE", "LDR", "STR", "ADD", "SUB", "MUL", "AND", "OR", "EXOR"]) :
    (decode_reads regs l).rs2_value = regs l.rs2 := by
  simp only [List.mem_cons, List.mem_singleton, List.not_mem_nil, or_false] at h
  rcases h with h | h | h | h | h | h | h | h | h <;> simp [decode_reads, h]

/-- The opcode for which `decode` reads the third source register. -/
theorem decode_reads_rs3 (regs : Int → Int) (l : CPU_Stage) (h : l.opcode = "STR") :
    (decode_reads regs l).rs3_value = regs l.rs3 := by
  simp [decode_reads, h]

/-- The Execute1 latch after the pass `i + 2` is the latch `fetch` built for
the instruction `i` with the register reads of `decode` from the register
file after that pass. -/
theorem decoded_latch (code : Int → APEX_Instruction) (n i : Nat) :
    (cycles (i + 2) (initial_context code n)).stage_EX1 =
      decode_reads (cycles (i + 2) (initial_context code n)).regs
        (fetch_copy zero_stage (4000 + 4 * (i : Int)) (code i)) := by
  have hs := shape_after_cycles code n (i + 1)
  have hf := hs.fetched (by omega)
  have e : i + 1 - 1 = i := by omega
  rw [e] at hf
  show (cycle (cycles (i + 1) (initial_context code n))).stage_EX1 =
    decode_reads (cycle (cycles (i + 1) (initial_context code n))).regs _
  rw [(cycle_fields _).2.2.2.2.2.2.1, latch_enabled_eq hs.stage_DRF, hf]
  simp

/-- The register file over the pass `t + 1`. -/
theorem regs_pass (code : Int → APEX_Instruction) (n t : Nat) :
    (cycles (t + 1) (initial_context code n)).regs =
      if 6 ≤ t then writeback_regs (cycles t (initial_context code n)).regs
        (cycles t (initial_context code n)).stage_WB
      else (cycles t (initial_context code n)).regs := by
  show (cycle (cycles t (initial_context code n))).regs = _
  rw [(cycle_fields _).2.2.1, latch_enabled_eq (shape_after_cycles code n t).stage_WB]
  simp

/-- The writeback of an instruction that writes `r`, in the pass `j + 7`,
puts the `buffer` of the Writeback latch into `r`. -/
theorem regs_written (code : Int → APEX_Instruction) (n j : Nat) (r : Int)
    (hw : writes_reg (code j) r) :
    (cycles (j + 7) (initial_context code n)).regs r =
      (cycles (j + 6) (initial_context code n)).stage_WB.buffer := by
  have hH := (shape_after_cycles code n (j + 6)).stage_WB.2 (by omega)
  have e : j + 6 - 6 = j := by omega
  rw [e] at hH
  rw [regs_pass code n (j + 6), if_pos (by omega),
    writeback_regs_writes _ _ (by rw [hH.2.1]; exact hw.1), hH.2.2.1, hw.2,
    Function.update_same]

/-- A pass in which no instruction that writes `r` is in Writeback leaves `r`
as it is. -/
theorem regs_kept (code : Int → APEX_Instruction) (n t : Nat) (r : Int)
    (h : 6 ≤ t → ¬ writes_reg (code ((t - 6 : Nat) : Int)) r) :
    (cycles (t + 1) (initial_context code n)).regs r =
      (cycles t (initial_context code n)).regs r := by
  rw [regs_pass code n t]
  by_cases h6 : 6 ≤ t
  · rw [if_pos h6]
    have hH := (shape_after_cycles code n t).stage_WB.2 h6
    have hnw := h h6
    by_cases hop : (code ((t - 6 : Nat) : Int)).opcode ∈ ["MOVC", "ADD", "ADDL", "SUB", "SUBL",
        "MUL", "AND", "OR", "EXOR", "LOAD", "LDR"]
    · have hrd : r ≠ (cycles t (initial_context code n)).stage_WB.rd := by
        rw [hH.2.2.1]
        intro hr
        exact hnw ⟨hop, hr.symm⟩
      exact writeback_regs_of_ne _ _ _ hrd
    · rw [writeback_regs_skips _ _ (by rw [hH.2.1]; exact hop)]
  · rw [if_neg h6]

/-- A stretch of passes in which no instruction that writes `r` is in
Writeback leaves `r` as it is. -/
theorem regs_kept_range (code : Int → APEX_Instruction) (n : Nat) (r : Int) (a b : Nat)
    (hab : a ≤ b)
    (h : ∀ t : Nat, a ≤ t → t < b → 6 ≤ t → ¬ writes_reg (code ((t - 6 : Nat) : Int)) r) :
    (cycles b (initial_context code n)).regs r = (cycles a (initial_context code n)).regs r := by
  induction b with
  | zero =>
    have : a = 0 := by omega
    rw [this]
  | succ k ih =>
    by_cases hk : a = k + 1
    · rw [hk]
    · rw [regs_kept code n k r (h k (by omega) (by omega))]
      exact ih (by omega) (fun t h1 h2 => h t h1 (by omega))

/-- The window between the writeback of a producer and the decode of a
consumer. -/
theorem window (code : Int → APEX_Instruction) (n j i : Nat) (r : Int) (hji : j < i)
    (hother : ∀ k : Nat, writeback_between j i k → ¬ writes_reg (code k) r) :
    (5 ≤ i - j → (cycles (i + 2) (initial_context code n)).regs r =
      (cycles (j + 7) (initial_context code n)).regs r) ∧
    (i - j ≤ 4 → (cycles (i + 2) (initial_context code n)).regs r =
      (cycles (j + 6) (initial_context code n)).regs r) := by
  constructor
  · intro h5
    apply regs_kept_range code n r (j + 7) (i + 2) (by omega)
    intro t h1 h2 h6
    exact hother (t - 6) (Or.inl ⟨by omega, by omega⟩)
  · intro h4
    apply (regs_kept_range code n r (i + 2) (j + 6) (by omega) _).symm
    intro t h1 h2 h6
    exact hother (t - 6) (Or.inr ⟨by omega, by omega⟩)

/-! ### What `fetch` copies -/

/-- C1. For every program of `n` instructions that are `MOVC` or one of
`ADD`, `SUB`, `MUL`, `AND`, `OR`, `EXOR` with register indices in `0 .. 31`,
in which every instruction reading the destination register of an earlier one
has at least 6 instructions between the two, `APEX_cpu_run` from the initial
context (given at least `n + 6` passes) returns a context whose register file
is the one the sequential interpreter produces. -/
theorem pipeline_matches_sequential (code : Int → APEX_Instruction) (n : Nat)
    (hclass : ∀ i : Nat, i < n → mov_alu (code i)) (hsep : separated code n 6)
    (fuel : Nat) (hfuel : n + 6 ≤ fuel) :
    ∃ cpu, APEX_cpu_run fuel (initial_context code n) = some cpu ∧
      cpu.regs = sequential_run code n :=
  run_mov_alu code n hclass (separated_mono (by decide) hsep) fuel hfuel

/-- An instance: the nine instructions of `prog_spaced`, run with 15 passes
allowed. -/
theorem pipeline_matches_sequential_witness :
    (∀ i : Nat, i < 9 → mov_alu (code_of prog_spaced (fun _ => no_instruction) i)) ∧
    separated (code_of prog_spaced (fun _ => no_instruction)) 9 6 ∧
    9 + 6 ≤ 15 ∧
    ∃ cpu, APEX_cpu_run 15 (initial_context (code_of prog_spaced (fun _ => no_instruction)) 9)
      = some cpu ∧
      cpu.regs = sequential_run (code_of prog_spaced (fun _ => no_instruction)) 9 :=
  ⟨by decide, by decide, by decide,
    pipeline_matches_sequential (code_of prog_spaced (fun _ => no_instruction)) 9
      (by decide) (by decide) 15 (by decide)⟩

/-- C2. For every program of `n ≥ 1` instructions, `APEX_cpu_run` from the
initial context (clock 0, retired count 0, every latch but Fetch busy) leaves
the loop after exactly `n + 6` passes: with `n + 6` passes or more allowed it
returns the context after `n + 6` passes, with fewer it has not returned; the
retired count is `n` after pass `n + 6` and below `n` after every earlier
pass, and the clock is then `n + 6`. -/
theorem APEX_cpu_run_terminates (code : Int → APEX_Instruction) (n : Nat) (hn : 1 ≤ n) :
    (∀ fuel, n + 6 ≤ fuel → APEX_cpu_run fuel (initial_context code n) =
      some (cycles (n + 6) (initial_context code n))) ∧
    (∀ fuel, fuel < n + 6 → APEX_cpu_run fuel (initial_context code n) = none) ∧
    (cycles (n + 6) (initial_context code n)).ins_completed = (n : Int) ∧
    (∀ t, t < n + 6 → (cycles t (initial_context code n)).ins_completed < (n : Int)) ∧
    (cycles (n + 6) (initial_context code n)).clock = (n : Int) + 6 := by
  obtain ⟨h1, h2, h3⟩ := run_initial_context code n hn
  have hs := shape_after_cycles code n (n + 6)
  refine ⟨h1, h2, ?_, h3, ?_⟩
  · rw [hs.ins_completed]; simp
  · rw [hs.clock]; push_cast; rfl

/-- An instance: the three instructions of `prog_add`; the run makes 9 passes
and has not returned with 8 allowed. -/
theorem APEX_cpu_run_terminates_witness :
    1 ≤ 3 ∧
    APEX_cpu_run 9 (initial_context (code_of prog_add (fun _ => no_instruction)) 3) =
      some (cycles 9 (initial_context (code_of prog_add (fun _ => no_instruction)) 3)) ∧
    APEX_cpu_run 8 (initial_context (code_of prog_add (fun _ => no_instruction)) 3) = none ∧
    (cycles 9 (initial_context (code_of prog_add (fun _ => no_instruction)) 3)).ins_completed
      = 3 ∧
    (cycles 9 (initial_context (code_of prog_add (fun _ => no_instruction)) 3)).clock = 9 :=
  ⟨by decide,
    (APEX_cpu_run_terminates (code_of prog_add (fun _ => no_instruction)) 3 (by decide)).1 9
      (by decide),
    (APEX_cpu_run_terminates (code_of prog_add (fun _ => no_instruction)) 3 (by decide)).2.1 8
      (by decide),
    (APEX_cpu_run_terminates (code_of prog_add (fun _ => no_instruction)) 3 (by decide)).2.2.1,
    (APEX_cpu_run_terminates (code_of prog_add (fun _ => no_instruction)) 3
      (by decide)).2.2.2.2⟩

/-- C3, as amended. Running the program `MOVC R1,#10; MOVC R2,#20;
ADD R3,R1,R2` to completion with `APEX_cpu_run` from the initial context,
whatever lies behind the program in the code memory, yields the final
register values `R1 = 10`, `R2 = 20` and `R3 = 0`. -/
theorem prog_add_registers (rest : Int → APEX_Instruction) (fuel : Nat) (hfuel : 9 ≤ fuel) :
    ∃ cpu, APEX_cpu_run fuel (initial_context (code_of prog_add rest) 3) = some cpu ∧
      cpu.regs 1 = 10 ∧ cpu.regs 2 = 20 ∧ cpu.regs 3 = 0 := by
  obtain ⟨cpu, hrun, hregs⟩ := run_code_of prog_add rest fuel (by decide) hfuel
  refine ⟨cpu, hrun, ?_, ?_, ?_⟩ <;> rw [hregs] <;> decide!

/-- An instance: 9 passes allowed and empty instructions behind the program. -/
theorem prog_add_registers_witness :
    9 ≤ 9 ∧ ∃ cpu, APEX_cpu_run 9 (initial_context (code_of prog_add (fun _ => no_instruction)) 3)
      = some cpu ∧ cpu.regs 1 = 10 ∧ cpu.regs 2 = 20 ∧ cpu.regs 3 = 0 :=
  ⟨by decide, prog_add_registers (fun _ => no_instruction) 9 (by decide)⟩

/-- C3 as stated fails: the run of `MOVC R1,#10; MOVC R2,#20; ADD R3,R1,R2`
does not end with `R1 = 10`, `R2 = 20` and `R3 = 30`. -/
theorem prog_add_not_thirty :
    ¬ ∃ cpu, APEX_cpu_run 9 (initial_context (code_of prog_add (fun _ => no_instruction)) 3)
      = some cpu ∧ cpu.regs 1 = 10 ∧ cpu.regs 2 = 20 ∧ cpu.regs 3 = 30 := by
  rintro ⟨cpu, hrun, -, -, h3⟩
  have h : APEX_cpu_run 9 (initial_context (code_of prog_add (fun _ => no_instruction)) 3) =
      some (cycles 9 (initial_context (code_of prog_add (fun _ => no_instruction)) 3)) :=
    (run_initial_context _ 3 (by decide)).1 9 (le_refl _)
  rw [h] at hrun
  cases hrun
  have h0 : (cycles 9 (initial_context (code_of prog_add (fun _ => no_instruction)) 3)).regs 3
      = 0 := by decide!
  rw [h0] at h3
  exact absurd h3 (by decide)

/-- C4, as amended. Running the program `MOVC R1,#99; STORE R1,R0,#0;
LOAD R2,R0,#0` to completion with `APEX_cpu_run` from the initial context,
whatever lies behind the program in the code memory, yields the final
register values `R2 = 0` and `R1 = 99`: the `STORE` passes Memory1 in pass 6
with the operand value 0 it read for `R1` and stores it at address 0, and the
`LOAD` passes Memory1 in pass 7 and reads that 0 back. -/
theorem prog_store_load_registers (rest : Int → APEX_Instruction) (fuel : Nat)
    (hfuel : 9 ≤ fuel) :
    (∃ cpu, APEX_cpu_run fuel (initial_context (code_of prog_store_load rest) 3) = some cpu ∧
      cpu.regs 2 = 0 ∧ cpu.regs 1 = 99) ∧
    (cycles 6 (initial_context (code_of prog_store_load rest) 3)).stage_MEM2.opcode = "STORE" ∧
    (cycles 6 (initial_context (code_of prog_store_load rest) 3)).stage_MEM2.rs1_value = 0 ∧
    (cycles 6 (initial_context (code_of prog_store_load rest) 3)).stage_MEM2.mem_address = 0 ∧
    (cycles 6 (initial_context (code_of prog_store_load rest) 3)).data_memory 0 = 0 ∧
    (cycles 7 (initial_context (code_of prog_store_load rest) 3)).stage_MEM2.opcode = "LOAD" ∧
    (cycles 7 (initial_context (code_of prog_store_load rest) 3)).stage_MEM2.mem_address = 0 ∧
    (cycles 7 (initial_context (code_of prog_store_load rest) 3)).stage_MEM2.buffer = 0 := by
  obtain ⟨cpu, hrun, hregs⟩ := run_code_of prog_store_load rest fuel (by decide) hfuel
  have h6 : (cycles 6 (initial_context (code_of prog_store_load rest) 3)).stage_MEM2 = _ :=
    (cycles_code_of prog_store_load rest 6).stage_MEM2 (by decide)
  have h7 : (cycles 7 (initial_context (code_of prog_store_load rest) 3)).stage_MEM2 = _ :=
    (cycles_code_of prog_store_load rest 7).stage_MEM2 (by decide)
  have hm : (cycles 6 (initial_context (code_of prog_store_load rest) 3)).data_memory = _ :=
    (cycles_code_of prog_store_load rest 6).data_memory (by decide)
  rw [h6, h7, hm]
  refine ⟨⟨cpu, hrun, by rw [hregs]; decide!, by rw [hregs]; decide!⟩, ?_, ?_, ?_, ?_, ?_, ?_, ?_⟩
  all_goals decide!

/-- An instance: 9 passes allowed and empty instructions behind the program. -/
theorem prog_store_load_registers_witness :
    9 ≤ 9 ∧ ∃ cpu,
      APEX_cpu_run 9 (initial_context (code_of prog_store_load (fun _ => no_instruction)) 3)
        = some cpu ∧ cpu.regs 2 = 0 ∧ cpu.regs 1 = 99 :=
  ⟨by decide, (prog_store_load_registers (fun _ => no_instruction) 9 (by decide)).1⟩

/-- C4 as stated fails: the run of `MOVC R1,#99; STORE R1,R0,#0;
LOAD R2,R0,#0` does not end with `R2 = 99`. -/
theorem prog_store_load_not_ninety_nine :
    ¬ ∃ cpu,
      APEX_cpu_run 9 (initial_context (code_of prog_store_load (fun _ => no_instruction)) 3)
        = some cpu ∧ cpu.regs 2 = 99 := by
  rintro ⟨cpu, hrun, h2⟩
  have h : APEX_cpu_run 9
      (initial_context (code_of prog_store_load (fun _ => no_instruction)) 3) =
      some (cycles 9 (initial_context (code_of prog_store_load (fun _ => no_instruction)) 3)) :=
    (run_initial_context _ 3 (by decide)).1 9 (le_refl _)
  rw [h] at hrun
  cases hrun
  have h0 : (cycles 9
      (initial_context (code_of prog_store_load (fun _ => no_instruction)) 3)).regs 2 = 0 := by
    decide!
  rw [h0] at h2
  exact absurd h2 (by decide)

/-- C5. Running the program `MOVC R1,#5; ADD R2,R1,R1` to completion with
`APEX_cpu_run` from the initial context, whatever lies behind the program in
the code memory, yields the final register values `R2 = 0` and `R1 = 5`:
`decode` of the `ADD` takes place in pass 3 and reads 0 for both operands,
and `R1` is still 0 after pass 6 and becomes 5 in pass 7, when `writeback`
of the `MOVC` takes place. -/
theorem prog_hazard_registers (rest : Int → APEX_Instruction) (fuel : Nat) (hfuel : 8 ≤ fuel) :
    (∃ cpu, APEX_cpu_run fuel (initial_context (code_of prog_hazard rest) 2) = some cpu ∧
      cpu.regs 2 = 0 ∧ cpu.regs 1 = 5 ∧ cpu.regs 2 ≠ 10) ∧
    (cycles 2 (initial_context (code_of prog_hazard rest) 2)).stage_DRF.opcode = "ADD" ∧
    (cycles 3 (initial_context (code_of prog_hazard rest) 2)).stage_EX1.opcode = "ADD" ∧
    (cycles 3 (initial_context (code_of prog_hazard rest) 2)).stage_EX1.rs1_value = 0 ∧
    (cycles 3 (initial_context (code_of prog_hazard rest) 2)).stage_EX1.rs2_value = 0 ∧
    (cycles 6 (initial_context (code_of prog_hazard rest) 2)).stage_WB.opcode = "MOVC" ∧
    (cycles 6 (initial_context (code_of prog_hazard rest) 2)).regs 1 = 0 ∧
    (cycles 7 (initial_context (code_of prog_hazard rest) 2)).regs 1 = 5 := by
  obtain ⟨cpu, hrun, hregs⟩ := run_code_of prog_hazard rest fuel (by decide) hfuel
  have h2 : (cycles 2 (initial_context (code_of prog_hazard rest) 2)).stage_DRF = _ :=
    (cycles_code_of prog_hazard rest 2).stage_DRF (by decide)
  have h3 : (cycles 3 (initial_context (code_of prog_hazard rest) 2)).stage_EX1 = _ :=
    (cycles_code_of prog_hazard rest 3).stage_EX1 (by decide)
  have h6 : (cycles 6 (initial_context (code_of prog_hazard rest) 2)).stage_WB = _ :=
    (cycles_code_of prog_hazard rest 6).stage_WB (by decide)
  have r6 : (cycles 6 (initial_context (code_of prog_hazard rest) 2)).regs = _ :=
    (cycles_code_of prog_hazard rest 6).regs (by decide)
  have r7 : (cycles 7 (initial_context (code_of prog_hazard rest) 2)).regs = _ :=
    (cycles_code_of prog_hazard rest 7).regs (by decide)
  rw [h2, h3, h6, r6, r7]
  refine ⟨⟨cpu, hrun, by rw [hregs]; decide!, by rw [hregs]; decide!, by rw [hregs]; decide!⟩,
    ?_, ?_, ?_, ?_, ?_, ?_, ?_⟩
  all_goals decide!

/-- An instance: 8 passes allowed and empty instructions behind the program. -/
theorem prog_hazard_registers_witness :
    8 ≤ 8 ∧ ∃ cpu,
      APEX_cpu_run 8 (initial_context (code_of prog_hazard (fun _ => no_instruction)) 2)
        = some cpu ∧ cpu.regs 2 = 0 ∧ cpu.regs 1 = 5 ∧ cpu.regs 2 ≠ 10 :=
  ⟨by decide, (prog_hazard_registers (fun _ => no_instruction) 8 (by decide)).1⟩

/-- C6, evaluated on the program `MOVC R1,#10` (`n = 1`): the run makes seven
passes and returns, and `fetch` reads the code-memory indices `0, 1, .., 6` in
them, so not every index read is below `n`. -/
theorem fetch_reads_past_the_end :
    (APEX_cpu_run 7 (initial_context (code_of prog_movc (fun _ => no_instruction)) 1)).isSome
      = true ∧
    fetch_trace 7 (initial_context (code_of prog_movc (fun _ => no_instruction)) 1) =
      [0, 1, 2, 3, 4, 5, 6] ∧
    ¬ (∀ i ∈ fetch_trace 7 (initial_context (code_of prog_movc (fun _ => no_instruction)) 1),
      i < 1) := by
  have h : fetch_trace 7 (initial_context (code_of prog_movc (fun _ => no_instruction)) 1) =
      [0, 1, 2, 3, 4, 5, 6] := by decide!
  rw [h]
  exact ⟨by decide!, rfl, by decide⟩

/-- C7. For every context whose Writeback latch is neither busy nor stalled
and holds `rd` in `0 .. 31`, `writeback` sets `regs[rd]` to the latch's
`buffer` when the opcode is one of `MOVC`, `ADD`, `ADDL`, `SUB`, `SUBL`,
`MUL`, `AND`, `OR`, `EXOR`, `LOAD`, `LDR`, leaves the register file as it is
when the opcode is `STORE` or `STR`, leaves every register other than `rd`
as it is, and adds exactly 1 to `ins_completed` whatever the opcode. -/
theorem writeback_contract (cpu : APEX_CPU)
    (hbusy : cpu.stage_WB.busy = false) (hstalled : cpu.stage_WB.stalled = false)
    (_hrd : 0 ≤ cpu.stage_WB.rd ∧ cpu.stage_WB.rd < 32) :
    (cpu.stage_WB.opcode ∈ ["MOVC", "ADD", "ADDL", "SUB", "SUBL", "MUL", "AND", "OR", "EXOR",
        "LOAD", "LDR"] →
      (writeback cpu).regs cpu.stage_WB.rd = cpu.stage_WB.buffer) ∧
    (cpu.stage_WB.opcode = "STORE" ∨ cpu.stage_WB.opcode = "STR" →
      (writeback cpu).regs = cpu.regs) ∧
    (∀ r : Int, r ≠ cpu.stage_WB.rd → (writeback cpu).regs r = cpu.regs r) ∧
    (writeback cpu).ins_completed = cpu.ins_completed + 1 := by
  have hregs : (writeback cpu).regs = writeback_regs cpu.regs cpu.stage_WB := by
    simp [writeback, hbusy, hstalled]
  refine ⟨?_, ?_, ?_, ?_⟩
  · intro h
    rw [hregs, writeback_regs_writes _ _ h, Function.update_same]
  · intro h
    rw [hregs]
    apply writeback_regs_skips
    rcases h with h | h <;> simp [h]
  · intro r hr
    rw [hregs, writeback_regs_of_ne _ _ _ hr]
  · simp [writeback, hbusy, hstalled]

/-- An instance: `writeback_sample`, whose Writeback latch holds an `ADD` to `R3`
with result 30. -/
theorem writeback_contract_witness :
    writeback_sample.stage_WB.busy = false ∧ writeback_sample.stage_WB.stalled = false ∧
    (0 ≤ writeback_sample.stage_WB.rd ∧ writeback_sample.stage_WB.rd < 32) ∧
    (writeback writeback_sample).regs 3 = 30 ∧
    (∀ r : Int, r ≠ 3 → (writeback writeback_sample).regs r = 0) ∧
    (writeback writeback_sample).ins_completed = 1 :=
  ⟨rfl, rfl, by decide,
    (writeback_contract writeback_sample rfl rfl (by decide)).1 (by decide),
    (writeback_contract writeback_sample rfl rfl (by decide)).2.2.1,
    (writeback_contract writeback_sample rfl rfl (by decide)).2.2.2⟩

/-- C8. For every context whose Execute1 latch is neither busy nor stalled,
`execute1` changes exactly one field of the latch: `mem_address` becomes
`rs2_value + imm` for `STORE`, `rs1_value + imm` for `LOAD`,
`rs1_value + rs2_value` for `LDR`, `rs2_value + rs3_value` for `STR`;
`buffer` becomes `rs1_value + rs2_value` for `ADD`, `rs1_value + imm` for
`ADDL`, `rs1_value - rs2_value` for `SUB`, `rs1_value - imm` for `SUBL`,
`rs1_value * rs2_value` for `MUL`, the bitwise and, or, exclusive or of
`rs1_value` and `rs2_value` for `AND`, `OR`, `EXOR`, and `imm` for `MOVC`,
sums, differences and products in 32-bit wraparound arithmetic; the Execute2
latch becomes equal to the resulting Execute1 latch. -/
theorem execute1_contract (cpu : APEX_CPU)
    (hbusy : cpu.stage_EX1.busy = false) (hstalled : cpu.stage_EX1.stalled = false) :
    (cpu.stage_EX1.opcode = "STORE" → (execute1 cpu).stage_EX1 =
      { cpu.stage_EX1 with
        mem_address := wrap32 (cpu.stage_EX1.rs2_value + cpu.stage_EX1.imm) }) ∧
    (cpu.stage_EX1.opcode = "LOAD" → (execute1 cpu).stage_EX1 =
      { cpu.stage_EX1 with
        mem_address := wrap32 (cpu.stage_EX1.rs1_value + cpu.stage_EX1.imm) }) ∧
    (cpu.stage_EX1.opcode = "LDR" → (execute1 cpu).stage_EX1 =
      { cpu.stage_EX1 with
        mem_address := wrap32 (cpu.stage_EX1.rs1_value + cpu.stage_EX1.rs2_value) }) ∧
    (cpu.stage_EX1.opcode = "STR" → (execute1 cpu).stage_EX1 =
      { cpu.stage_EX1 with
        mem_address := wrap32 (cpu.stage_EX1.rs2_value + cpu.stage_EX1.rs3_value) }) ∧
    (cpu.stage_EX1.opcode = "ADD" → (execute1 cpu).stage_EX1 =
      { cpu.stage_EX1 with
        buffer := wrap32 (cpu.stage_EX1.rs1_value + cpu.stage_EX1.rs2_value) }) ∧
    (cpu.stage_EX1.opcode = "ADDL" → (execute1 cpu).stage_EX1 =
      { cpu.stage_EX1 with
        buffer := wrap32 (cpu.stage_EX1.rs1_value + cpu.stage_EX1.imm) }) ∧
    (cpu.stage_EX1.opcode = "SUB" → (execute1 cpu).stage_EX1 =
      { cpu.stage_EX1 with
        buffer := wrap32 (cpu.stage_EX1.rs1_value - cpu.stage_EX1.rs2_value) }) ∧
    (cpu.stage_EX1.opcode = "SUBL" → (execute1 cpu).stage_EX1 =
      { cpu.stage_EX1 with
        buffer := wrap32 (cpu.stage_EX1.rs1_value - cpu.stage_EX1.imm) }) ∧
    (cpu.stage_EX1.opcode = "MUL" → (execute1 cpu).stage_EX1 =
      { cpu.stage_EX1 with
        buffer := wrap32 (cpu.stage_EX1.rs1_value * cpu.stage_EX1.rs2_value) }) ∧
    (cpu.stage_EX1.opcode = "AND" → (execute1 cpu).stage_EX1 =
      { cpu.stage_EX1 with
        buffer := Int.land cpu.stage_EX1.rs1_value cpu.stage_EX1.rs2_value }) ∧
    (cpu.stage_EX1.opcode = "OR" → (execute1 cpu).stage_EX1 =
      { cpu.stage_EX1 with
        buffer := Int.lor cpu.stage_EX1.rs1_value cpu.stage_EX1.rs2_value }) ∧
    (cpu.stage_EX1.opcode = "EXOR" → (execute1 cpu).stage_EX1 =
      { cpu.stage_EX1 with
        buffer := Int.xor cpu.stage_EX1.rs1_value cpu.stage_EX1.rs2_value }) ∧
    (cpu.stage_EX1.opcode = "MOVC" → (execute1 cpu).stage_EX1 =
      { cpu.stage_EX1 with buffer := cpu.stage_EX1.imm }) ∧
    (execute1 cpu).stage_EX2 = (execute1 cpu).stage_EX1 := by
  have h1 : (execute1 cpu).stage_EX1 = execute1_compute cpu.stage_EX1 := by
    simp [execute1, hbusy, hstalled]
  have h2 : (execute1 cpu).stage_EX2 = execute1_compute cpu.stage_EX1 := by
    simp [execute1, hbusy, hstalled]
  rw [h1, h2]
  refine ⟨?_, ?_, ?_, ?_, ?_, ?_, ?_, ?_, ?_, ?_, ?_, ?_, ?_, rfl⟩ <;> intro h <;>
    simp [execute1_compute, h, land_comm cpu.stage_EX1.rs2_value,
      lor_comm cpu.stage_EX1.rs2_value, xor_comm cpu.stage_EX1.rs2_value]

/-- An instance: `execute1_sample`, whose `SUB` wraps around to the greatest
32-bit integer. -/
theorem execute1_contract_witness :
    execute1_sample.stage_EX1.busy = false ∧ execute1_sample.stage_EX1.stalled = false ∧
    (execute1 execute1_sample).stage_EX1 =
      { execute1_sample.stage_EX1 with buffer := 2147483647 } ∧
    (execute1 execute1_sample).stage_EX2 = (execute1 execute1_sample).stage_EX1 :=
  ⟨rfl, rfl,
    (execute1_contract execute1_sample rfl rfl).2.2.2.2.2.2.1 rfl,
    (execute1_contract execute1_sample rfl rfl).2.2.2.2.2.2.2.2.2.2.2.2.2⟩

/-- C9. For every context whose Decode latch is neither busy nor stalled and
holds source register indices in `0 .. 31`, `decode` sets exactly the operand
values the opcode requires from the register file (`rs1_value` and
`rs2_value` for `STORE`, `LDR`, `ADD`, `SUB`, `MUL`, `AND`, `OR`, `EXOR`;
`rs1_value` for `LOAD`, `ADDL`, `SUBL`; all three for `STR`; none for
`MOVC`), leaves every other field of the latch as it was, and makes the
Execute1 latch equal to the resulting Decode latch. -/
theorem decode_contract (cpu : APEX_CPU)
    (hbusy : cpu.stage_DRF.busy = false) (hstalled : cpu.stage_DRF.stalled = false)
    (_hrs1 : 0 ≤ cpu.stage_DRF.rs1 ∧ cpu.stage_DRF.rs1 < 32)
    (_hrs2 : 0 ≤ cpu.stage_DRF.rs2 ∧ cpu.stage_DRF.rs2 < 32)
    (_hrs3 : 0 ≤ cpu.stage_DRF.rs3 ∧ cpu.stage_DRF.rs3 < 32) :
    (cpu.stage_DRF.opcode ∈ ["STORE", "LDR", "ADD", "SUB", "MUL", "AND", "OR", "EXOR"] →
      (decode cpu).stage_DRF =
        { cpu.stage_DRF with
          rs1_value := cpu.regs cpu.stage_DRF.rs1
          rs2_value := cpu.regs cpu.stage_DRF.rs2 }) ∧
    (cpu.stage_DRF.opcode ∈ ["LOAD", "ADDL", "SUBL"] →
      (decode cpu).stage_DRF =
        { cpu.stage_DRF with rs1_value := cpu.regs cpu.stage_DRF.rs1 }) ∧
    (cpu.stage_DRF.opcode = "STR" →
      (decode cpu).stage_DRF =
        { cpu.stage_DRF with
          rs1_value := cpu.regs cpu.stage_DRF.rs1
          rs2_value := cpu.regs cpu.stage_DRF.rs2
          rs3_value := cpu.regs cpu.stage_DRF.rs3 }) ∧
    (cpu.stage_DRF.opcode = "MOVC" → (decode cpu).stage_DRF = cpu.stage_DRF) ∧
    (decode cpu).stage_EX1 = (decode cpu).stage_DRF := by
  have h1 : (decode cpu).stage_DRF = decode_reads cpu.regs cpu.stage_DRF := by
    simp [decode, hbusy, hstalled]
  have h2 : (decode cpu).stage_EX1 = decode_reads cpu.regs cpu.stage_DRF := by
    simp [decode, hbusy, hstalled]
  rw [h1, h2]
  refine ⟨?_, ?_, ?_, ?_, rfl⟩
  · intro h
    simp only [List.mem_cons, List.mem_singleton, List.not_mem_nil, or_false] at h
    rcases h with h | h | h | h | h | h | h | h <;> simp [decode_reads, h]
  · intro h
    simp only [List.mem_cons, List.mem_singleton, List.not_mem_nil, or_false] at h
    rcases h with h | h | h <;> simp [decode_reads, h]
  · intro h
    simp [decode_reads, h]
  · intro h
    simp [decode_reads, h]

/-- An instance: `decode_sample`, whose `STR` reads all three source registers. -/
theorem decode_contract_witness :
    decode_sample.stage_DRF.busy = false ∧ decode_sample.stage_DRF.stalled = false ∧
    (0 ≤ decode_sample.stage_DRF.rs1 ∧ decode_sample.stage_DRF.rs1 < 32) ∧
    (0 ≤ decode_sample.stage_DRF.rs2 ∧ decode_sample.stage_DRF.rs2 < 32) ∧
    (0 ≤ decode_sample.stage_DRF.rs3 ∧ decode_sample.stage_DRF.rs3 < 32) ∧
    (decode decode_sample).stage_DRF =
      { decode_sample.stage_DRF with rs1_value := 101, rs2_value := 102, rs3_value := 103 } ∧
    (decode decode_sample).stage_EX1 = (decode decode_sample).stage_DRF :=
  ⟨rfl, rfl, by decide, by decide, by decide,
    (decode_contract decode_sample rfl rfl (by decide) (by decide) (by decide)).2.2.1 rfl,
    (decode_contract decode_sample rfl rfl (by decide) (by decide) (by decide)).2.2.2.2⟩

/-- C10. For every context whose Memory1 latch is neither busy nor stalled
and holds `mem_address` in `0 .. 3999`, `memory1` writes `rs1_value` into the
data memory at `mem_address` for `STORE` and `STR` (every other cell and the
latch as they were), sets the latch's `buffer` to the data-memory cell at
`mem_address` for `LOAD` and `LDR` (data memory as it was), changes neither
the data memory nor the latch for any other opcode, and makes the Memory2
latch equal to the resulting Memory1 latch. -/
theorem memory1_contract (cpu : APEX_CPU)
    (hbusy : cpu.stage_MEM1.busy = false) (hstalled : cpu.stage_MEM1.stalled = false)
    (_haddr : 0 ≤ cpu.stage_MEM1.mem_address ∧ cpu.stage_MEM1.mem_address < 4000) :
    (cpu.stage_MEM1.opcode = "STORE" ∨ cpu.stage_MEM1.opcode = "STR" →
      (memory1 cpu).data_memory cpu.stage_MEM1.mem_address = cpu.stage_MEM1.rs1_value ∧
      (∀ a : Int, a ≠ cpu.stage_MEM1.mem_address →
        (memory1 cpu).data_memory a = cpu.data_memory a) ∧
      (memory1 cpu).stage_MEM1 = cpu.stage_MEM1) ∧
    (cpu.stage_MEM1.opcode = "LOAD" ∨ cpu.stage_MEM1.opcode = "LDR" →
      (memory1 cpu).stage_MEM1 =
        { cpu.stage_MEM1 with buffer := cpu.data_memory cpu.stage_MEM1.mem_address } ∧
      (memory1 cpu).data_memory = cpu.data_memory) ∧
    (cpu.stage_MEM1.opcode ∉ ["STORE", "STR", "LOAD", "LDR"] →
      (memory1 cpu).data_memory = cpu.data_memory ∧
      (memory1 cpu).stage_MEM1 = cpu.stage_MEM1) ∧
    (memory1 cpu).stage_MEM2 = (memory1 cpu).stage_MEM1 := by
  have h1 : (memory1 cpu).stage_MEM1 =
      memory1_load (memory1_store cpu.data_memory cpu.stage_MEM1) cpu.stage_MEM1 := by
    simp [memory1, hbusy, hstalled]
  have h2 : (memory1 cpu).stage_MEM2 =
      memory1_load (memory1_store cpu.data_memory cpu.stage_MEM1) cpu.stage_MEM1 := by
    simp [memory1, hbusy, hstalled]
  have h3 : (memory1 cpu).data_memory = memory1_store cpu.data_memory cpu.stage_MEM1 := by
    simp [memory1, hbusy, hstalled]
  rw [h1, h2, h3]
  refine ⟨?_, ?_, ?_, rfl⟩
  · intro h
    rcases h with h | h <;>
      simp +contextual [memory1_store, memory1_load, h, Function.update_noteq]
  · intro h
    rcases h with h | h <;> simp [memory1_store, memory1_load, h]
  · intro h
    simp only [List.mem_cons, List.mem_singleton, List.not_mem_nil, or_false, not_or] at h
    simp [memory1_store, memory1_load, h]

/-- An instance: `memory1_sample`, whose `STORE` writes 99 to the address 7. -/
theorem memory1_contract_witness :
    memory1_sample.stage_MEM1.busy = false ∧ memory1_sample.stage_MEM1.stalled = false ∧
    (0 ≤ memory1_sample.stage_MEM1.mem_address ∧
      memory1_sample.stage_MEM1.mem_address < 4000) ∧
    (memory1 memory1_sample).data_memory 7 = 99 ∧
    (∀ a : Int, a ≠ 7 → (memory1 memory1_sample).data_memory a = 0) ∧
    (memory1 memory1_sample).stage_MEM2 = (memory1 memory1_sample).stage_MEM1 :=
  ⟨rfl, rfl, by decide,
    ((memory1_contract memory1_sample rfl rfl (by decide)).1 (Or.inl rfl)).1,
    ((memory1_contract memory1_sample rfl rfl (by decide)).1 (Or.inl rfl)).2.1,
    (memory1_contract memory1_sample rfl rfl (by decide)).2.2.2⟩

/-- C11. For every context whose Fetch latch is neither busy nor stalled and
whose `pc` indexes an instruction inside the code memory, `fetch` puts the
old `pc` and the `opcode`, `rd`, `rs1`, `rs2`, `rs3` and `imm` of the
instruction at the index `get_code_index(pc)`, which is `(pc - 4000) / 4`,
into the Fetch latch (its other fields as they were), adds exactly 4 to `pc`,
makes the Decode latch equal to the resulting Fetch latch, and leaves the
register file and the data memory as they were. -/
theorem fetch_contract (cpu : APEX_CPU)
    (hbusy : cpu.stage_F.busy = false) (hstalled : cpu.stage_F.stalled = false)
    (_hpc : 0 ≤ get_code_index cpu.pc ∧ get_code_index cpu.pc < cpu.code_memory_size) :
    get_code_index cpu.pc = (cpu.pc - 4000).tdiv 4 ∧
    (fetch cpu).stage_F =
      { cpu.stage_F with
        pc := cpu.pc
        opcode := (cpu.code_memory (get_code_index cpu.pc)).opcode
        rd := (cpu.code_memory (get_code_index cpu.pc)).rd
        rs1 := (cpu.code_memory (get_code_index cpu.pc)).rs1
        rs2 := (cpu.code_memory (get_code_index cpu.pc)).rs2
        rs3 := (cpu.code_memory (get_code_index cpu.pc)).rs3
        imm := (cpu.code_memory (get_code_index cpu.pc)).imm } ∧
    (fetch cpu).pc = cpu.pc + 4 ∧
    (fetch cpu).stage_DRF = (fetch cpu).stage_F ∧
    (fetch cpu).regs = cpu.regs ∧
    (fetch cpu).data_memory = cpu.data_memory := by
  simp [fetch, fetch_copy, hbusy, hstalled, get_code_index]

/-- An instance: the initial context on the program `prog_add`, whose first
instruction `MOVC R1,#10` is fetched at `pc = 4000`. -/
theorem fetch_contract_witness :
    (initial_context (code_of prog_add (fun _ => no_instruction)) 3).stage_F.busy = false ∧
    (initial_context (code_of prog_add (fun _ => no_instruction)) 3).stage_F.stalled = false ∧
    (0 ≤ get_code_index (initial_context (code_of prog_add (fun _ => no_instruction)) 3).pc ∧
      get_code_index (initial_context (code_of prog_add (fun _ => no_instruction)) 3).pc <
        (initial_context (code_of prog_add (fun _ => no_instruction)) 3).code_memory_size) ∧
    (fetch (initial_context (code_of prog_add (fun _ => no_instruction)) 3)).stage_F =
      { zero_stage with pc := 4000, opcode := "MOVC", rd := 1, imm := 10 } ∧
    (fetch (initial_context (code_of prog_add (fun _ => no_instruction)) 3)).pc = 4004 :=
  ⟨rfl, rfl, by decide,
    (fetch_contract (initial_context (code_of prog_add (fun _ => no_instruction)) 3) rfl rfl
      (by decide)).2.1,
    (fetch_contract (initial_context (code_of prog_add (fun _ => no_instruction)) 3) rfl rfl
      (by decide)).2.2.1⟩

/-- C12. The stages Execute2 and Memory2 only pass the latch on: for every
context whose Execute2 latch is neither busy nor stalled, after `execute2`
the Memory1 latch equals the Execute2 latch, and the Execute2 latch, `pc`,
register file, data memory and retired count are as they were; for every
context whose Memory2 latch is neither busy nor stalled, after `memory2` the
Writeback latch equals the Memory2 latch, and the Memory2 latch, `pc`,
register file, data memory and retired count are as they were. -/
theorem execute2_memory2_pass_through (cpu : APEX_CPU) :
    (cpu.stage_EX2.busy = false → cpu.stage_EX2.stalled = false →
      (execute2 cpu).stage_MEM1 = cpu.stage_EX2 ∧
      (execute2 cpu).stage_EX2 = cpu.stage_EX2 ∧
      (execute2 cpu).pc = cpu.pc ∧
      (execute2 cpu).regs = cpu.regs ∧
      (execute2 cpu).data_memory = cpu.data_memory ∧
      (execute2 cpu).ins_completed = cpu.ins_completed) ∧
    (cpu.stage_MEM2.busy = false → cpu.stage_MEM2.stalled = false →
      (memory2 cpu).stage_WB = cpu.stage_MEM2 ∧
      (memory2 cpu).stage_MEM2 = cpu.stage_MEM2 ∧
      (memory2 cpu).pc = cpu.pc ∧
      (memory2 cpu).regs = cpu.regs ∧
      (memory2 cpu).data_memory = cpu.data_memory ∧
      (memory2 cpu).ins_completed = cpu.ins_completed) := by
  constructor
  · intro hbusy hstalled
    simp [execute2, hbusy, hstalled]
  · intro hbusy hstalled
    simp [memory2, hbusy, hstalled]

/-- An instance: `passthrough_sample`, whose Execute2 latch holds a `MUL` and
whose Memory2 latch holds a `LOAD`. -/
theorem execute2_memory2_pass_through_witness :
    passthrough_sample.stage_EX2.busy = false ∧
    passthrough_sample.stage_EX2.stalled = false ∧
    passthrough_sample.stage_MEM2.busy = false ∧
    passthrough_sample.stage_MEM2.stalled = false ∧
    (execute2 passthrough_sample).stage_MEM1 =
      { zero_stage with opcode := "MUL", rd := 3, buffer := 6 } ∧
    (memory2 passthrough_sample).stage_WB =
      { zero_stage with opcode := "LOAD", rd := 4, buffer := 7 } :=
  ⟨rfl, rfl, rfl, rfl,
    ((execute2_memory2_pass_through passthrough_sample).1 rfl rfl).1,
    ((execute2_memory2_pass_through passthrough_sample).2 rfl rfl).1⟩

/-- C16. The register file is changed by `writeback` only and the data
memory by `memory1` only: for every context, whatever the opcodes in its
latches, `fetch`, `decode`, `execute1`, `execute2`, `memory1` and `memory2`
leave the register file as it was, and `fetch`, `decode`, `execute1`,
`execute2`, `memory2` and `writeback` leave the data memory as it was. -/
theorem regs_and_data_memory_frame (cpu : APEX_CPU) :
    ((fetch cpu).regs = cpu.regs ∧ (decode cpu).regs = cpu.regs ∧
      (execute1 cpu).regs = cpu.regs ∧ (execute2 cpu).regs = cpu.regs ∧
      (memory1 cpu).regs = cpu.regs ∧ (memory2 cpu).regs = cpu.regs) ∧
    ((fetch cpu).data_memory = cpu.data_memory ∧ (decode cpu).data_memory = cpu.data_memory ∧
      (execute1 cpu).data_memory = cpu.data_memory ∧
      (execute2 cpu).data_memory = cpu.data_memory ∧
      (memory2 cpu).data_memory = cpu.data_memory ∧
      (writeback cpu).data_memory = cpu.data_memory) :=
  ⟨⟨(fetch_fields cpu).2.2.1, (decode_fields cpu).2.2.1, (execute1_fields cpu).2.2.1,
      (execute2_fields cpu).2.2.1, (memory1_fields cpu).2.2.1, (memory2_fields cpu).2.2.1⟩,
    ⟨(fetch_fields cpu).2.2.2.2.2.2.2.2.2.2.2.2.2.1,
      (decode_fields cpu).2.2.2.2.2.2.2.2.2.2.2.2.2.1,
      (execute1_fields cpu).2.2.2.2.2.2.2.2.2.2.2.2.2.1,
      (execute2_fields cpu).2.2.2.2.2.2.2.2.2.2.2.2.2.1,
      (memory2_fields cpu).2.2.2.2.2.2.2.2.2.2.2.2.2.1,
      (writeback_fields cpu).2.2.2.2.2.2.2.2.2.2.2.2.2.1⟩⟩

/-- C13, as amended. Starting from the initial context, the latch of the
stage `s` (`1` Decode, .., `6` Writeback; `0` Fetch) is busy until the first
instruction reaches it: after `t` passes it has `busy` set exactly when
`t < s`, and the guard of its stage function holds exactly when `s ≤ t`.  So
after the sixth pass no latch has `busy` set, and the stage function of the
stage `s` executes its action in the pass `s + 1` and in every later one. -/
theorem busy_until_reached (code : Int → APEX_Instruction) (n t s : Nat) (hs : s ≤ 6) :
    ((stage_at (cycles t (initial_context code n)) s).busy = true ↔ t < s) ∧
    ((!(stage_at (cycles t (initial_context code n)) s).busy &&
      !(stage_at (cycles t (initial_context code n)) s).stalled) = true ↔ s ≤ t) ∧
    (6 ≤ t → (stage_at (cycles t (initial_context code n)) s).busy = false) := by
  refine ⟨busy_iff code n t s hs, guard_iff code n t s hs, ?_⟩
  intro h6
  have h := busy_iff code n t s hs
  cases hb : (stage_at (cycles t (initial_context code n)) s).busy
  · rfl
  · exact absurd (h.1 hb) (by omega)

/-- An instance: the Execute1 latch after the first pass on the program
`prog_movc`. -/
theorem busy_until_reached_witness :
    2 ≤ 6 ∧
    (cycles 1 (initial_context (code_of prog_movc (fun _ => no_instruction)) 1)).stage_EX1.busy
      = true :=
  ⟨by decide,
    (busy_until_reached (code_of prog_movc (fun _ => no_instruction)) 1 1 2 (by decide)).1.2
      (by decide)⟩

/-- C13 as stated fails: after the first pass of the run on the program
`MOVC R1,#10` only the Decode latch is clear; the latches of Execute1,
Execute2, Memory1, Memory2 and Writeback still have `busy` set. -/
theorem busy_after_first_pass :
    ¬ (∀ s : Nat, 1 ≤ s → s ≤ 6 →
      (stage_at (cycles 1 (initial_context (code_of prog_movc (fun _ => no_instruction)) 1))
        s).busy = false) ∧
    (cycles 1 (initial_context (code_of prog_movc (fun _ => no_instruction)) 1)).stage_DRF.busy
      = false ∧
    (cycles 1 (initial_context (code_of prog_movc (fun _ => no_instruction)) 1)).stage_EX1.busy
      = true ∧
    (cycles 1 (initial_context (code_of prog_movc (fun _ => no_instruction)) 1)).stage_EX2.busy
      = true ∧
    (cycles 1 (initial_context (code_of prog_movc (fun _ => no_instruction)) 1)).stage_MEM1.busy
      = true ∧
    (cycles 1 (initial_context (code_of prog_movc (fun _ => no_instruction)) 1)).stage_MEM2.busy
      = true ∧
    (cycles 1 (initial_context (code_of prog_movc (fun _ => no_instruction)) 1)).stage_WB.busy
      = true := by
  refine ⟨?_, by decide!, by decide!, by decide!, by decide!, by decide!, by decide!⟩
  intro h
  have h2 := h 2 (by decide) (by decide)
  revert h2
  decide!

/-- C14. Each instruction advances exactly one stage per pass: for every
program of `n` instructions run from the initial context and every `t` with
`1 ≤ t ≤ n + 6`, after `t` passes the latch of the stage `s` (`1` Decode, ..,
`6` Writeback) is still busy when `t < s` and is not busy and holds the
instruction fetched at `pc = 4000 + 4 (t - s)` when `s ≤ t`.  So the
instruction `i` is read by `fetch` in the pass `i + 1` and lies, not busy, in
the latch of the stage `s` after `i + s` passes, where the stage function of
`s` works on it in the pass `i + s + 1`: Decode in `i + 2`, Execute1 in
`i + 3`, Execute2 in `i + 4`, Memory1 in `i + 5`, Memory2 in `i + 6`,
Writeback in `i + 7`. -/
theorem one_stage_per_pass (code : Int → APEX_Instruction) (n : Nat) :
    (∀ t s : Nat, 1 ≤ t → t ≤ n + 6 → 1 ≤ s → s ≤ 6 →
      (t < s → (stage_at (cycles t (initial_context code n)) s).busy = true) ∧
      (s ≤ t → Holds code (t - s) (stage_at (cycles t (initial_context code n)) s))) ∧
    (∀ i : Nat, i < n →
      fetch_access (cycles i (initial_context code n)) = some (i : Int) ∧
      ∀ s : Nat, 1 ≤ s → s ≤ 6 →
        Holds code i (stage_at (cycles (i + s) (initial_context code n)) s) ∧
        (!(stage_at (cycles (i + s) (initial_context code n)) s).busy &&
          !(stage_at (cycles (i + s) (initial_context code n)) s).stalled) = true) := by
  constructor
  · intro t s _ _ hs1 hs
    have h := latch_at_stage code n t s hs1 hs
    exact ⟨fun hlt => by rw [h.1 hlt], h.2⟩
  · intro i _
    refine ⟨fetch_access_of_shape (shape_after_cycles code n i), ?_⟩
    intro s hs1 hs
    have h := (latch_at_stage code n (i + s) s hs1 hs).2 (by omega)
    have e : i + s - s = i := by omega
    rw [e] at h
    exact ⟨h, holds_enabled h⟩

/-- An instance: after four passes on the program `prog_add` the Execute1
latch holds the `ADD` fetched at `pc = 4008`. -/
theorem one_stage_per_pass_witness :
    1 ≤ 4 ∧ 4 ≤ 3 + 6 ∧ 1 ≤ 2 ∧ 2 ≤ 6 ∧ 2 ≤ 4 ∧
    Holds (code_of prog_add (fun _ => no_instruction)) (4 - 2)
      (stage_at (cycles 4 (initial_context (code_of prog_add (fun _ => no_instruction)) 3)) 2) :=
  ⟨by decide, by decide, by decide, by decide, by decide,
    ((one_stage_per_pass (code_of prog_add (fun _ => no_instruction)) 3).1 4 2 (by decide)
      (by decide) (by decide) (by decide)).2 (by decide)⟩

/-- C20. The program counter stays aligned with the instruction index:
`get_code_index(4000 + 4 * i) = i` for every `i`, and in a run from the
initial context the `pc` after `t` passes is `4000 + 4 * t`, so that `fetch`
reads the code-memory index `t` in the pass `t + 1`: one index per pass, in
order, none skipped and none repeated. -/
theorem pc_aligned :
    (∀ i : Int, get_code_index (4000 + 4 * i) = i) ∧
    (∀ (code : Int → APEX_Instruction) (n t : Nat),
      (cycles t (initial_context code n)).pc = 4000 + 4 * (t : Int)) ∧
    (∀ (code : Int → APEX_Instruction) (n t : Nat),
      fetch_access (cycles t (initial_context code n)) = some (t : Int)) := by
  refine ⟨?_, ?_, ?_⟩
  · intro i
    unfold get_code_index
    have h : (4000 + 4 * i - 4000) = 4 * i := by ring
    rw [h]
    exact Int.mul_tdiv_cancel_left _ (by decide)
  · intro code n t
    exact (shape_after_cycles code n t).pc
  · intro code n t
    exact fetch_access_of_shape (shape_after_cycles code n t)

/-- C17. The flag `stalled` is never set: in every context reached from the
initial context by a sequence of steps of a driver, each step a call of one
of the seven stage functions or a whole pass of the loop body of
`APEX_cpu_run`, and so in particular after any number of passes, every one of
the seven latches has `stalled` clear. -/
theorem stalled_never_set (code : Int → APEX_Instruction) (n : Nat) :
    (∀ (steps : List Driver_Step) (s : Nat),
      (stage_at (driver_steps steps (initial_context code n)) s).stalled = false) ∧
    (∀ steps : List Driver_Step, Unstalled (driver_steps steps (initial_context code n))) ∧
    (∀ t s : Nat, (stage_at (cycles t (initial_context code n)) s).stalled = false) := by
  have h := fun steps => unstalled_driver_steps steps _ (unstalled_initial_context code n)
  refine ⟨fun steps s => unstalled_stage_at _ (h steps) s, h, ?_⟩
  intro t s
  rw [cycles_eq_driver_steps]
  exact unstalled_stage_at _ (h _) s

/-- C15. A stage whose latch is busy or stalled does nothing: each of
`fetch`, `decode`, `execute1`, `execute2`, `memory1`, `memory2` and
`writeback` returns the context as it is (all latches, `pc`, register file,
data memory and retired count) when the latch of its stage has `busy` or
`stalled` set; and these two flags are the only condition under which a
stage function is the identity for every opcode: a stage function that
returns the context as it is whatever the opcode in its latch has a latch
with `busy` or `stalled` set. -/
theorem busy_or_stalled_skips (cpu : APEX_CPU) :
    ((cpu.stage_F.busy = true ∨ cpu.stage_F.stalled = true → fetch cpu = cpu) ∧
      (cpu.stage_DRF.busy = true ∨ cpu.stage_DRF.stalled = true → decode cpu = cpu) ∧
      (cpu.stage_EX1.busy = true ∨ cpu.stage_EX1.stalled = true → execute1 cpu = cpu) ∧
      (cpu.stage_EX2.busy = true ∨ cpu.stage_EX2.stalled = true → execute2 cpu = cpu) ∧
      (cpu.stage_MEM1.busy = true ∨ cpu.stage_MEM1.stalled = true → memory1 cpu = cpu) ∧
      (cpu.stage_MEM2.busy = true ∨ cpu.stage_MEM2.stalled = true → memory2 cpu = cpu) ∧
      (cpu.stage_WB.busy = true ∨ cpu.stage_WB.stalled = true → writeback cpu = cpu)) ∧
    (∀ s : Nat, (stage_at cpu s).busy = true ∨ (stage_at cpu s).stalled = true →
      stage_function s cpu = cpu) ∧
    (∀ s : Nat,
      (∀ op : String, stage_function s (with_opcode cpu s op) = with_opcode cpu s op) →
      (stage_at cpu s).busy = true ∨ (stage_at cpu s).stalled = true) := by
  refine ⟨⟨stage_function_of_flag 0 cpu, stage_function_of_flag 1 cpu,
    stage_function_of_flag 2 cpu, stage_function_of_flag 3 cpu, stage_function_of_flag 4 cpu,
    stage_function_of_flag 5 cpu, stage_function_of_flag 6 cpu⟩,
    fun s => stage_function_of_flag s cpu, ?_⟩
  intro s h
  by_contra hflag
  rcases stage_function_changes s cpu hflag with hne | hne
  · exact hne (h "ADD")
  · exact hne (h "SUB")

/-- An instance: `decode` and `writeback` on the initial context, whose
Decode and Writeback latches are busy, and `fetch` on it, which is not the
identity. -/
theorem busy_or_stalled_skips_witness :
    ((initial_context (code_of prog_add (fun _ => no_instruction)) 3).stage_DRF.busy = true ∨
      (initial_context (code_of prog_add (fun _ => no_instruction)) 3).stage_DRF.stalled
        = true) ∧
    decode (initial_context (code_of prog_add (fun _ => no_instruction)) 3) =
      initial_context (code_of prog_add (fun _ => no_instruction)) 3 ∧
    writeback (initial_context (code_of prog_add (fun _ => no_instruction)) 3) =
      initial_context (code_of prog_add (fun _ => no_instruction)) 3 ∧
    (fetch (initial_context (code_of prog_add (fun _ => no_instruction)) 3)).pc ≠
      (initial_context (code_of prog_add (fun _ => no_instruction)) 3).pc :=
  ⟨Or.inl rfl,
    (busy_or_stalled_skips
      (initial_context (code_of prog_add (fun _ => no_instruction)) 3)).1.2.1 (Or.inl rfl),
    (busy_or_stalled_skips
      (initial_context (code_of prog_add (fun _ => no_instruction)) 3)).1.2.2.2.2.2.2
      (Or.inl rfl),
    by decide⟩

/-- C18, as amended. The window without forwarding is exactly four
instructions wide.  In a run from the initial context take a producer at the
program index `j` that writes the register `r` in `writeback` (in the pass
`j + 7`) and a consumer at an index `i > j` whose `decode` (in the pass
`i + 2`, after the `writeback` of that pass) reads `r`, with no other
instruction that writes `r` in a `writeback` between these two events: none
at the indices `j + 1 .. i - 5` when `i - j ≥ 5`, none at the indices
`i - 4 .. j - 1` when `i - j ≤ 4`.  Then the operand values `decode` reads for
`r` are `regs[r]` after the pass `i + 2`; the `writeback` of the producer puts
the `buffer` of its latch into `r`; when `i - j ≥ 5` the consumer reads that
value of the producer, and when `1 ≤ i - j ≤ 4` it reads the value `r` had
before the `writeback` of the producer. -/
theorem no_forwarding_window (code : Int → APEX_Instruction) (n j i : Nat) (r : Int)
    (hji : j < i) (_hi : i < n) (hw : writes_reg (code j) r)
    (hother : ∀ k : Nat, writeback_between j i k → ¬ writes_reg (code k) r) :
    (Holds code i (cycles (i + 2) (initial_context code n)).stage_EX1 ∧
      (reads_rs1 (code i) → (code i).rs1 = r →
        (cycles (i + 2) (initial_context code n)).stage_EX1.rs1_value =
          (cycles (i + 2) (initial_context code n)).regs r) ∧
      (reads_rs2 (code i) → (code i).rs2 = r →
        (cycles (i + 2) (initial_context code n)).stage_EX1.rs2_value =
          (cycles (i + 2) (initial_context code n)).regs r) ∧
      (reads_rs3 (code i) → (code i).rs3 = r →
        (cycles (i + 2) (initial_context code n)).stage_EX1.rs3_value =
          (cycles (i + 2) (initial_context code n)).regs r)) ∧
    (Holds code j (cycles (j + 6) (initial_context code n)).stage_WB ∧
      (cycles (j + 7) (initial_context code n)).regs r =
        (cycles (j + 6) (initial_context code n)).stage_WB.buffer) ∧
    (5 ≤ i - j → (cycles (i + 2) (initial_context code n)).regs r =
      (cycles (j + 6) (initial_context code n)).stage_WB.buffer) ∧
    (i - j ≤ 4 → (cycles (i + 2) (initial_context code n)).regs r =
      (cycles (j + 6) (initial_context code n)).regs r) := by
  have hwin := window code n j i r hji hother
  have hprod := regs_written code n j r hw
  have hE := (shape_after_cycles code n (i + 2)).stage_EX1.2 (by omega)
  have hW := (shape_after_cycles code n (j + 6)).stage_WB.2 (by omega)
  have e1 : i + 2 - 2 = i := by omega
  have e2 : j + 6 - 6 = j := by omega
  rw [e1] at hE
  rw [e2] at hW
  refine ⟨⟨hE, ?_, ?_, ?_⟩, ⟨hW, hprod⟩, ?_, hwin.2⟩
  · intro h1 hr
    rw [decoded_latch, decode_reads_rs1 _ _ (by exact h1)]
    rw [← hr]
    rfl
  · intro h2 hr
    rw [decoded_latch, decode_reads_rs2 _ _ (by exact h2)]
    rw [← hr]
    rfl
  · intro h3 hr
    rw [decoded_latch, decode_reads_rs3 _ _ (by exact h3)]
    rw [← hr]
    rfl
  · intro h5
    rw [hwin.1 h5, hprod]

/-- Two instances.  In `prog_window` the `ADD` at the index 5 reads `R1`
written by the `MOVC` at the index 0 and gets its value 5.  In `prog_add` the
`ADD` at the index 2 reads `R2` written by the `MOVC` at the index 1 and gets
the 0 that `R2` held before. -/
theorem no_forwarding_window_witness :
    (0 < 5 ∧ 5 < 6 ∧ writes_reg (code_of prog_window (fun _ => no_instruction) (0 : Nat)) 1 ∧
      (∀ k : Nat, writeback_between 0 5 k →
        ¬ writes_reg (code_of prog_window (fun _ => no_instruction) k) 1) ∧
      5 ≤ 5 - 0 ∧
      (cycles (5 + 2) (initial_context (code_of prog_window (fun _ => no_instruction)) 6)).regs 1
        = (cycles (0 + 6)
          (initial_context (code_of prog_window (fun _ => no_instruction)) 6)).stage_WB.buffer ∧
      (cycles 7 (initial_context (code_of prog_window (fun _ => no_instruction))
        6)).stage_EX1.rs1_value = 5) ∧
    (1 < 2 ∧ 2 < 3 ∧ writes_reg (code_of prog_add (fun _ => no_instruction) (1 : Nat)) 2 ∧
      (∀ k : Nat, writeback_between 1 2 k →
        ¬ writes_reg (code_of prog_add (fun _ => no_instruction) k) 2) ∧
      2 - 1 ≤ 4 ∧
      (cycles (2 + 2) (initial_context (code_of prog_add (fun _ => no_instruction)) 3)).regs 2
        = (cycles (1 + 6)
          (initial_context (code_of prog_add (fun _ => no_instruction)) 3)).regs 2 ∧
      (cycles 4 (initial_context (code_of prog_add (fun _ => no_instruction))
        3)).stage_EX1.rs2_value = 0) := by
  have h1 : ∀ k : Nat, writeback_between 0 5 k →
      ¬ writes_reg (code_of prog_window (fun _ => no_instruction) k) 1 := by
    intro k hk
    exact absurd hk (by unfold writeback_between; omega)
  have h2 : ∀ k : Nat, writeback_between 1 2 k →
      ¬ writes_reg (code_of prog_add (fun _ => no_instruction) k) 2 := by
    intro k hk
    have hk0 : k = 0 := by unfold writeback_between at hk; omega
    subst hk0
    decide
  exact ⟨⟨by decide, by decide, by decide, h1, by decide,
      (no_forwarding_window (code_of prog_window (fun _ => no_instruction)) 6 0 5 1 (by decide)
        (by decide) (by decide) h1).2.2.1 (by decide), by decide!⟩,
    ⟨by decide, by decide, by decide, h2, by decide,
      (no_forwarding_window (code_of prog_add (fun _ => no_instruction)) 3 1 2 2 (by decide)
        (by decide) (by decide) h2).2.2.2 (by decide), by decide!⟩⟩

/-- C18 as stated fails: in the run of `MOVC R1,#1; MOVC R1,#2; ADD R2,R1,R1`
the producer at the index 1 writes `R1`, the consumer at the index 2 reads
`R1` in `decode` and no instruction between the two writes `R1`, but the
consumer does not read the value `R1` had before the `writeback` of the
producer: it reads the 0 that `R1` holds in the pass 4, while `R1` holds 1
after the pass 7, before the `writeback` of the producer makes it 2 in the
pass 8. -/
theorem window_with_earlier_writer :
    (1 < 2 ∧ 2 < 3 ∧
      writes_reg (code_of prog_overwrite (fun _ => no_instruction) (1 : Nat)) 1 ∧
      reads_rs1 (code_of prog_overwrite (fun _ => no_instruction) (2 : Nat)) ∧
      (code_of prog_overwrite (fun _ => no_instruction) (2 : Nat)).rs1 = 1 ∧
      (∀ k : Nat, 1 < k → k < 2 →
        ¬ writes_reg (code_of prog_overwrite (fun _ => no_instruction) k) 1) ∧
      1 ≤ 2 - 1 ∧ 2 - 1 ≤ 4) ∧
    ¬ ((cycles (2 + 2)
        (initial_context (code_of prog_overwrite (fun _ => no_instruction)) 3)).stage_EX1.rs1_value
      = (cycles (1 + 6)
        (initial_context (code_of prog_overwrite (fun _ => no_instruction)) 3)).regs 1) ∧
    (cycles 4
      (initial_context (code_of prog_overwrite (fun _ => no_instruction)) 3)).stage_EX1.opcode
      = "ADD" ∧
    (cycles 4
      (initial_context (code_of prog_overwrite (fun _ => no_instruction)) 3)).stage_EX1.rs1_value
      = 0 ∧
    (cycles 7 (initial_context (code_of prog_overwrite (fun _ => no_instruction)) 3)).regs 1
      = 1 ∧
    (cycles 8 (initial_context (code_of prog_overwrite (fun _ => no_instruction)) 3)).regs 1
      = 2 := by
  refine ⟨⟨by decide, by decide, by decide, by decide, by decide, ?_, by decide, by decide⟩,
    by decide!, by decide!, by decide!, by decide!, by decide!⟩
  intro k h1 h2
  omega

end Apex
